import Mathlib

/-!
Verification development for the MLLM-Housing crawler.

This file gives a shallow embedding, in Lean 4, of the core algorithms of the
repository (tile partitioning, pagination, result merging/deduplication, crawl
state persistence, filename derivation) and proves/refutes the specification
claims about them.

Modelling conventions:
* Python strings are modelled as `List Char` (`PyStr`); Python string
  truthiness is non-emptiness.
* A listing (an element of `listResults` / `mapResults`) is modelled by its
  optional `zpid` plus an opaque `payload` standing for the rest of the JSON
  record, so that two distinct listings with the same zpid can be told apart.
* File-system state is modelled explicitly as data (file content + directory
  listing); writes are modelled as succeeding unless a `writeOk` flag says
  otherwise, reads succeed (the Python code swallows read errors into the
  empty state, a path the claims do not touch).
* Floating point arithmetic of the geometry code is modelled over `ℝ`
  (idealised real arithmetic, matching the spec's "within floating rounding").
-/

/-- Python strings, modelled as lists of characters. -/
abbrev PyStr := List Char

/-- Characters of a Lean string literal, used to write `PyStr` constants. -/
def pystr (s : String) : PyStr := s.data

/-- Python truthiness of an optional string value (`if zpid:`):
`None` and the empty string are falsy. -/
def pyTruthy : Option PyStr → Bool
  | none => false
  | some s => !s.isEmpty

/-- One entry of `listResults` or `mapResults`: its optional `zpid` and an
opaque payload standing for all other fields of the JSON record. -/
structure Item where
  zpid : Option PyStr
  payload : Nat
deriving DecidableEq, Repr

/-- The payload of one fetch: `{"listResults": [...], "mapResults": [...]}`
(src/pyzill_scraper.py, src/nodriver_visitor.py). -/
structure ResultBatch where
  listResults : List Item
  mapResults : List Item
deriving DecidableEq, Repr

/-- `page_count` (src/pyzill_scraper.py line 78): length of `listResults`. -/
def page_count (r : ResultBatch) : Nat := r.listResults.length

/-- `house_count` (src/pyzill_scraper.py line 85): length of `mapResults`. -/
def house_count (r : ResultBatch) : Nat := r.mapResults.length

/-- The per-array loop of `dedupe_results` (src/pyzill_scraper.py lines
101-117): walk the array keeping a `seen` set of zpids; an entry is appended
iff its zpid is truthy and not yet seen (`if zpid and zpid not in seen_zpids`),
in which case its zpid is added to `seen`. -/
def dedupeListAux (seen : List PyStr) : List Item → List Item
  | [] => []
  | item :: rest =>
    match item.zpid with
    | some z =>
      if z ≠ [] ∧ z ∉ seen then item :: dedupeListAux (z :: seen) rest
      else dedupeListAux seen rest
    | none => dedupeListAux seen rest

/-- `dedupe_results` (src/pyzill_scraper.py lines 93-121): dedupe
`listResults` and `mapResults` independently, each with its own `seen` set. -/
def dedupe_results (r : ResultBatch) : ResultBatch :=
  { listResults := dedupeListAux [] r.listResults
    mapResults := dedupeListAux [] r.mapResults }

/-- The merge loop shared by `pyzill_scraper_full` (src/pyzill_scraper.py
lines 63-69) and `visit_zillow_link_with_pagination` (src/nodriver_visitor.py
lines 616-626): the first batch is copied as the baseline, every later batch
only appends its `listResults`; `mapResults` stays the baseline's. An empty
batch list leaves the Python `merged = {}` falsy dict, modelled as `none`. -/
def merge_search_results : List ResultBatch → Option ResultBatch
  | [] => none
  | b :: rest =>
    some { listResults := b.listResults ++ rest.flatMap (·.listResults)
           mapResults := b.mapResults }

/-- The truthy zpids occurring in a list of items, in order (with
multiplicity); its membership relation is the "set of distinct identifiers"
the spec speaks about. -/
def zpidsOf (L : List Item) : List PyStr :=
  L.filterMap fun it =>
    match it.zpid with
    | some z => if z ≠ [] then some z else none
    | none => none

-- Pagination controller (src/nodriver_visitor.py) --------------------------

/-- The outcome of one `visit_zillow_link` call (src/nodriver_visitor.py
lines 409-549) as consumed by the pagination loop: the `success` and
`has_listings` flags and the extracted `search_results`.  A falsy (empty
dict) `search_results` is `none`; `page_count`/`house_count` of the result
dict are derived below, exactly as lines 493-500 compute them. -/
structure PageFetch where
  success : Bool
  has_listings : Bool
  search_results : Option ResultBatch
deriving DecidableEq, Repr

/-- `result["page_count"]`: length of the extracted `listResults` (0 when no
results were extracted). -/
def fetch_page_count (p : PageFetch) : Nat :=
  match p.search_results with
  | some r => page_count r
  | none => 0

/-- `result["house_count"]`: length of the extracted `mapResults` (0 when no
results were extracted). -/
def fetch_house_count (p : PageFetch) : Nat :=
  match p.search_results with
  | some r => house_count r
  | none => 0

/-- The loop state of `visit_zillow_link_with_pagination` when the `while`
loop exits (src/nodriver_visitor.py lines 568-613). -/
structure PagState where
  all_page_results : List PageFetch
  search_results_list : List ResultBatch
  accumulated_pc : Nat
  hc : Nat
  page_number : Nat
deriving DecidableEq, Repr

/-- The `while page_number <= max_pages` loop of
`visit_zillow_link_with_pagination` (src/nodriver_visitor.py lines 574-610),
written with explicit fuel: the loop runs while `page_number ≤ max_pages`,
so starting from page 1 it has `max_pages` iterations of fuel, and exhausted
fuel is exactly the `page_number > max_pages` exit.  Stop conditions inside
the loop mirror lines 579 and 603 in order. -/
def paginateAux (fetch : Nat → PageFetch) :
    Nat → Nat → Nat → Nat → List PageFetch → List ResultBatch → PagState
  | 0, page, acc, hc, pages, collected => ⟨pages, collected, acc, hc, page⟩
  | fuel + 1, page, acc, hc, pages, collected =>
    let result := fetch page
    let pages := pages ++ [result]
    if result.success = false ∨ result.has_listings = false then
      ⟨pages, collected, acc, hc, page⟩
    else
      let pc := fetch_page_count result
      let current_hc := fetch_house_count result
      let hc := if page = 1 then current_hc else hc
      let collected := match result.search_results with
        | some b => collected ++ [b]
        | none => collected
      let acc := acc + pc
      if acc ≥ hc ∨ (hc = 0 ∧ pc = 0) ∨ (page > 1 ∧ pc = 0) then
        ⟨pages, collected, acc, hc, page⟩
      else
        paginateAux fetch fuel (page + 1) acc hc pages collected

/-- `visit_zillow_link_with_pagination` (src/nodriver_visitor.py lines
551-642): run the pagination loop from page 1 with empty accumulators.
`fetch page` is the (pure, per-run) outcome of visiting a given page. -/
def visit_zillow_link_with_pagination (fetch : Nat → PageFetch) (max_pages : Nat) :
    PagState :=
  paginateAux fetch max_pages 1 0 0 [] []

/-- `merged_results` (src/nodriver_visitor.py lines 616-629): merge the
collected page results (baseline + appended `listResults`), then dedupe;
an empty collection leaves the falsy `{}`, modelled as `none`. -/
def pag_merged_results (st : PagState) : Option ResultBatch :=
  (merge_search_results st.search_results_list).map dedupe_results

/-- `total_houses` (src/nodriver_visitor.py line 632): `house_count` of the
merged results, or 0 when the merged dict is falsy. -/
def pag_total_houses (st : PagState) : Nat :=
  match pag_merged_results st with
  | some m => house_count m
  | none => 0

-- pyzill_scraper_master (src/pyzill_scraper.py) -----------------------------

/-- The dict returned by `pyzill_scraper_master` (src/pyzill_scraper.py lines
244-251).  `sold_path_set` records whether `pyzill_files.save_results` was
invoked (and produced a path) for this tile. -/
structure MasterOutcome where
  results : Option ResultBatch
  sold_path_set : Bool
  hc : Nat
  pc : Nat
  empty_recorded : Bool
  skipped : Bool
deriving DecidableEq, Repr

/-- The post-scrape part of `pyzill_scraper_master` (src/pyzill_scraper.py
lines 219-251), taking the scraped (merged) results as input: dedupe, compute
counts, raise the data-integrity `ValueError` when `pc < hc` (modelled as
`Except.error ()`), otherwise record empties and save non-empty results.
The pre-scrape empty-tile skip and the actual scraping are I/O done before
this point and are not needed by the claims. -/
def pyzill_scraper_master_core (scraped : ResultBatch) (save : Bool)
    (empty_recorded : Bool) : Except Unit MasterOutcome :=
  let results := dedupe_results scraped
  let hc := house_count results
  let pc := page_count results
  if pc < hc then
    Except.error ()
  else
    Except.ok
      { results := if hc > 0 then some results else none
        sold_path_set := save && decide (hc > 0)
        hc := hc
        pc := pc
        empty_recorded := empty_recorded
        skipped := false }

/-- Whether a master run ended with the tile's artifact written: an error
escape happens before `save_results` is ever reached. -/
def master_saved (e : Except Unit MasterOutcome) : Bool :=
  match e with
  | .ok o => o.sold_path_set
  | .error _ => false

-- Tile filename derivation (src/pyzill_files.py, src/nodriver_visitor.py) ---

/-- Python `str.split(sep)` for a single-character separator. -/
def splitOnChar (sep : Char) : PyStr → List PyStr
  | [] => [[]]
  | c :: rest =>
    let r := splitOnChar sep rest
    if c = sep then [] :: r
    else
      match r with
      | [] => [[c]]
      | p :: ps => (c :: p) :: ps

/-- Python `str.replace('.', '_')`. -/
def pyReplaceDotUnderscore (s : PyStr) : PyStr :=
  s.map fun c => if c = '.' then '_' else c

/-- `generate_tile_filename_by_coords` (src/pyzill_files.py lines 4-10 and
the identical copy in src/nodriver_visitor.py lines 85-92), applied to the
`str(...)` forms of the two coordinates.  `lat_parts[1]` raises `IndexError`
when the split produced fewer than two parts; that escape is `none`. -/
def generate_tile_filename_by_coords (ne_lat sw_long : PyStr) : Option PyStr :=
  let lat_parts := splitOnChar '.' ne_lat
  match lat_parts with
  | p0 :: p1 :: _ =>
    some (pystr "tile_" ++ p0 ++ ['_'] ++ p1 ++ pystr "_long_" ++
      pyReplaceDotUnderscore sw_long ++ pystr ".json")
  | _ => none

-- Crawl state store for houses (src/nodriver_detail_scraper.py) -------------

/-- Insert into a Python-set-modelled-as-list: no duplicates, insertion
order kept. -/
def insertOnce {α : Type} [DecidableEq α] (l : List α) (x : α) : List α :=
  if x ∈ l then l else l ++ [x]

/-- Python `set(list)`. -/
def setOfList (l : List PyStr) : List PyStr := l.foldl insertOnce []

/-- Python `a.startswith(b)` on the `List Char` string model. -/
def pyStartsWith : PyStr → PyStr → Bool
  | _, [] => true
  | [], _ :: _ => false
  | c :: cs, p :: ps => c = p && pyStartsWith cs ps

/-- Python `str.isdigit()` (ASCII digits; the identifiers here are decimal
listing ids). -/
def isDigitStr (s : PyStr) : Bool :=
  !s.isEmpty && s.all fun c => '0' ≤ c && c ≤ '9'

/-- Decimal value of an all-digit string (what `int(...)` returns on it). -/
def natOfDigits (s : PyStr) : Nat :=
  s.foldl (fun n c => n * 10 + (c.toNat - 48)) 0

/-- Decimal digits of a natural number, with structural fuel (a number `n`
has at most `n + 1` digits). -/
def natDigitsAux : Nat → Nat → PyStr
  | 0, _ => []
  | fuel + 1, n =>
    if n < 10 then [Char.ofNat (48 + n)]
    else natDigitsAux fuel (n / 10) ++ [Char.ofNat (48 + n % 10)]

/-- Decimal digits of a natural number (Python `f"{n}"`). -/
def natDigits (n : Nat) : PyStr := natDigitsAux (n + 1) n

/-- The JSON content of `visited_houses.json`: the two persisted key arrays.
(The file also stores a redundant `total_visited` count and Python sorts the
arrays before writing; both are human-inspection formatting recomputed from
the sets at each save, which the model abstracts — membership is what every
consumer reads.) -/
structure VisitedData where
  visited_zpids : List PyStr
  visited_urls : List PyStr
deriving DecidableEq, Repr

/-- The on-disk state of the `nodriver_houses` folder.  `files` lists the
stems of the artifact `*.json` files (the glob in the source only ever sees
`.json` files, so a filename is its stem plus `.json`); the state file
`visited_houses.json` is modelled separately by `state_data` (`none` =
no state file) and is skipped by name in the scan, like line 72 does. -/
structure HousesFS where
  state_data : Option VisitedData
  files : List PyStr
deriving DecidableEq, Repr

/-- The reconciliation scan of `load_visited_houses` (src/
nodriver_detail_scraper.py lines 68-87): for every artifact file, skip the
state file itself and the `nullzpid_*` placeholders, and union numeric stems
into the visited-zpids set. -/
def reconcileZpids (files : List PyStr) (acc : List PyStr) : List PyStr :=
  files.foldl
    (fun acc f =>
      if f = pystr "visited_houses" then acc
      else if pyStartsWith f (pystr "nullzpid_") then acc
      else if isDigitStr f then insertOnce acc f
      else acc)
    acc

/-- `load_visited_houses` (src/nodriver_detail_scraper.py lines 52-104):
read the state file if present, reconcile against the artifact directory,
and re-persist the synced state when non-empty.  Returns
`(visited_zpids, visited_urls, file system after the re-persist)`. -/
def load_visited_houses (fs : HousesFS) : List PyStr × List PyStr × HousesFS :=
  let visited_zpids :=
    match fs.state_data with
    | some d => setOfList d.visited_zpids
    | none => []
  let visited_urls :=
    match fs.state_data with
    | some d => setOfList d.visited_urls
    | none => []
  let visited_zpids := reconcileZpids fs.files visited_zpids
  (visited_zpids, visited_urls,
    if visited_zpids ≠ [] ∨ visited_urls ≠ [] then
      { fs with state_data := some ⟨visited_zpids, visited_urls⟩ }
    else fs)

/-- `save_visited_house` (src/nodriver_detail_scraper.py lines 107-141) in
the call shape used by the scraper (no pre-loaded sets): reload (which also
re-syncs), insert the truthy keys, write the state file back. -/
def save_visited_house (fs : HousesFS) (zpid url : Option PyStr) : HousesFS :=
  let r := load_visited_houses fs
  let visited_zpids :=
    match zpid with
    | some z => if z ≠ [] then insertOnce r.1 z else r.1
    | none => r.1
  let visited_urls :=
    match url with
    | some u => if u ≠ [] then insertOnce r.2.1 u else r.2.1
    | none => r.2.1
  { r.2.2 with state_data := some ⟨visited_zpids, visited_urls⟩ }

/-- The already-visited check of `scrape_all_houses` (src/
nodriver_detail_scraper.py lines 290-295): visited iff the truthy zpid is a
member of the zpid set or the url is a member of the url set. -/
def is_visited (visited_zpids visited_urls : List PyStr) (zpid : Option PyStr)
    (url : PyStr) : Bool :=
  (match zpid with
   | some z => !z.isEmpty && visited_zpids.contains z
   | none => false)
  || visited_urls.contains url

/-- `get_next_nullzpid_counter` (src/nodriver_detail_scraper.py lines
191-212): one more than the largest `N` among well-formed `nullzpid_N`
artifact stems, or 1 when there are none. -/
def get_next_nullzpid_counter (files : List PyStr) : Nat :=
  let counters :=
    (files.filter fun f => pyStartsWith f (pystr "nullzpid_")).filterMap fun f =>
      match splitOnChar '_' f with
      | _ :: n :: _ => if isDigitStr n then some (natOfDigits n) else none
      | _ => none
  match counters with
  | [] => 1
  | _ => counters.foldl Nat.max 0 + 1

/-- `save_house_data` (src/nodriver_detail_scraper.py lines 215-251), with
`zpid` being the final value after the parsed-data fallback: pick the
filename stem (zpid, or the next `nullzpid_N` placeholder), refuse to
overwrite an existing file, write the artifact (failure modelled by
`writeOk = false`).  Returns `(saved path?, files after)`. -/
def save_house_data (files : List PyStr) (zpid : Option PyStr) (writeOk : Bool) :
    Option PyStr × List PyStr :=
  let filename :=
    match zpid with
    | some z =>
      if z ≠ [] then z
      else pystr "nullzpid_" ++ natDigits (get_next_nullzpid_counter files)
    | none => pystr "nullzpid_" ++ natDigits (get_next_nullzpid_counter files)
  if filename ∈ files then (none, files)
  else if writeOk then (some filename, files ++ [filename]) else (none, files)

/-- One house's save-then-mark step of `scrape_all_houses` (src/
nodriver_detail_scraper.py lines 403-412): write the artifact; only when a
path came back, mark the house visited (`zpid if zpid else None`, plus the
detail url). -/
structure HouseWork where
  zpid : Option PyStr
  detail_url : PyStr
  write_ok : Bool
deriving DecidableEq, Repr

def process_house (fs : HousesFS) (w : HouseWork) : HousesFS :=
  let r := save_house_data fs.files w.zpid w.write_ok
  let fs' := { fs with files := r.2 }
  match r.1 with
  | some _ =>
    save_visited_house fs'
      (match w.zpid with
       | some z => if z ≠ [] then some z else none
       | none => none)
      (some w.detail_url)
  | none => fs'

-- Tile orchestrator step (src/nodriver_visitor.py, visit_all_links) ---------

/-- The on-disk state the tile orchestrator mutates: the tile artifact files
of `nodriver_results` and the persisted `visited_tiles.json` index set. -/
structure TileFS where
  artifacts : List PyStr
  visited_indexes : List Nat
deriving DecidableEq, Repr

/-- `save_visited_tile` (src/nodriver_visitor.py lines 68-83): load the
visited set, add the index, write it back (the persisted array is sorted;
order abstracted, membership is what is consumed). -/
def save_visited_tile (st : TileFS) (index : Nat) : TileFS :=
  { st with visited_indexes := insertOnce st.visited_indexes index }

/-- Inputs of one paginate-branch tile iteration of `visit_all_links`
(src/nodriver_visitor.py lines 704-755) besides the pagination outcome:
the tile's index, its coordinate-derived filename, whether both coordinates
are truthy, and whether the artifact write succeeds
(`save_tile_results` returns `None` on write failure). -/
structure TilePagework where
  index : Nat
  filename : PyStr
  has_coords : Bool
  write_ok : Bool
deriving DecidableEq, Repr

/-- The save-and-mark tail of one paginate-branch tile iteration of
`visit_all_links` (src/nodriver_visitor.py lines 720-755): attempt the save
when `save_immediately` and the coordinates are truthy (both the
`total_houses > 0` branch and the empty branch do), then mark the tile
visited iff the save succeeded **or** `total_houses == 0` (line 748). -/
def process_tile_outcome (save_immediately : Bool) (st : TileFS)
    (w : TilePagework) (total_houses : Nat) : TileFS :=
  let save_attempted := save_immediately && w.has_coords
  let save_successful := save_attempted && w.write_ok
  let st :=
    if save_successful then
      { st with artifacts := insertOnce st.artifacts w.filename }
    else st
  if save_successful || total_houses == 0 then
    save_visited_tile st w.index
  else st

/-- One whole paginate-branch tile iteration: paginate, then save and mark. -/
def process_tile_paginate (save_immediately : Bool) (fetch : Nat → PageFetch)
    (max_pages : Nat) (st : TileFS) (w : TilePagework) : TileFS :=
  process_tile_outcome save_immediately st w
    (pag_total_houses (visit_zillow_link_with_pagination fetch max_pages))

-- Geo partitioner (src/zillow_scraper.py) ----------------------------------

/-- A `{"north":…, "south":…, "east":…, "west":…}` bounds dict.  The float
arithmetic of the partitioner is modelled over `ℝ`. -/
structure GeoBounds where
  north : ℝ
  south : ℝ
  east : ℝ
  west : ℝ

/-- `km_per_deg` (src/zillow_scraper.py lines 39-42): `(km per degree of
longitude, km per degree of latitude)` at a latitude given in degrees;
`math.radians(x) = x·π/180`. -/
noncomputable def km_per_deg (lat_deg : ℝ) : ℝ × ℝ :=
  (111.320 * Real.cos (lat_deg * Real.pi / 180), 110.574)

/-- `midlat = 0.5 * (S + N)` (src/zillow_scraper.py lines 62 and 74). -/
noncomputable def midlat (b : GeoBounds) : ℝ := 0.5 * (b.south + b.north)

/-- `width_km` of the search space (src/zillow_scraper.py line 66). -/
noncomputable def searchWidthKm (sb : GeoBounds) : ℝ :=
  |sb.east - sb.west| * (km_per_deg (midlat sb)).1

/-- `height_km` of the search space (src/zillow_scraper.py line 67). -/
noncomputable def searchHeightKm (sb : GeoBounds) : ℝ :=
  |sb.north - sb.south| * (km_per_deg (midlat sb)).2

/-- `ref_w_km` after the `safety_scale` shrink (src/zillow_scraper.py lines
76 and 80). -/
noncomputable def refWidthKm (rt : GeoBounds) (safety_scale : ℝ) : ℝ :=
  |rt.east - rt.west| * (km_per_deg (midlat rt)).1 * safety_scale

/-- `ref_h_km` after the `safety_scale` shrink (src/zillow_scraper.py lines
77 and 81). -/
noncomputable def refHeightKm (rt : GeoBounds) (safety_scale : ℝ) : ℝ :=
  |rt.north - rt.south| * (km_per_deg (midlat rt)).2 * safety_scale

/-- `cols = max(1, math.ceil(width_km / ref_w_km))` (src/zillow_scraper.py
line 86); a never-positive ceil and Python's are both clamped to 1. -/
noncomputable def subtileCols (sb rt : GeoBounds) (scale : ℝ) : ℕ :=
  max 1 ⌈searchWidthKm sb / refWidthKm rt scale⌉.toNat

/-- `rows = max(1, math.ceil(height_km / ref_h_km))` (src/zillow_scraper.py
line 87). -/
noncomputable def subtileRows (sb rt : GeoBounds) (scale : ℝ) : ℕ :=
  max 1 ⌈searchHeightKm sb / refHeightKm rt scale⌉.toNat

/-- `dlon = (E - W) / cols` (src/zillow_scraper.py line 90). -/
noncomputable def subtileDlon (sb rt : GeoBounds) (scale : ℝ) : ℝ :=
  (sb.east - sb.west) / (subtileCols sb rt scale : ℝ)

/-- `dlat = (N - S) / rows` (src/zillow_scraper.py line 91). -/
noncomputable def subtileDlat (sb rt : GeoBounds) (scale : ℝ) : ℝ :=
  (sb.north - sb.south) / (subtileRows sb rt scale : ℝ)

/-- The `(min(w,e), max(w,e), min(s,n), max(s,n))` tuple the inner loop
appends for row `i`, column `j` (src/zillow_scraper.py lines 96-101). -/
noncomputable def subtileAt (sb rt : GeoBounds) (scale : ℝ) (i j : ℕ) :
    ℝ × ℝ × ℝ × ℝ :=
  let dlon := subtileDlon sb rt scale
  let dlat := subtileDlat sb rt scale
  let w := sb.west + j * dlon
  let e := sb.west + (j + 1) * dlon
  let s := sb.south + i * dlat
  let n := sb.south + (i + 1) * dlat
  (min w e, max w e, min s n, max s n)

/-- The row-major double loop of `compute_subtiles` (src/zillow_scraper.py
lines 93-101). -/
noncomputable def subtileList (sb rt : GeoBounds) (scale : ℝ) :
    List (ℝ × ℝ × ℝ × ℝ) :=
  (List.range (subtileRows sb rt scale)).flatMap fun i =>
    (List.range (subtileCols sb rt scale)).map fun j => subtileAt sb rt scale i j

open Classical in
/-- `compute_subtiles` (src/zillow_scraper.py lines 44-102): `none` models
the `ValueError` raised for a non-positive reference size. -/
noncomputable def compute_subtiles (sb rt : GeoBounds) (safety_scale : ℝ) :
    Option (List (ℝ × ℝ × ℝ × ℝ)) :=
  if refWidthKm rt safety_scale ≤ 0 ∨ refHeightKm rt safety_scale ≤ 0 then none
  else some (subtileList sb rt safety_scale)

/-- Accessors for the `(west, east, south, north)` tuples. -/
def tileW (t : ℝ × ℝ × ℝ × ℝ) : ℝ := t.1

def tileE (t : ℝ × ℝ × ℝ × ℝ) : ℝ := t.2.1

def tileS (t : ℝ × ℝ × ℝ × ℝ) : ℝ := t.2.2.1

def tileN (t : ℝ × ℝ × ℝ × ℝ) : ℝ := t.2.2.2

/-- Closed membership of a point in a tile. -/
def memTile (t : ℝ × ℝ × ℝ × ℝ) (x y : ℝ) : Prop :=
  tileW t ≤ x ∧ x ≤ tileE t ∧ tileS t ≤ y ∧ y ≤ tileN t

/-- Membership in a tile's interior (used to state "no overlap"). -/
def interiorMemTile (t : ℝ × ℝ × ℝ × ℝ) (x y : ℝ) : Prop :=
  tileW t < x ∧ x < tileE t ∧ tileS t < y ∧ y < tileN t

/-- The `{north:1.0, south:0.0, east:1.0, west:0.0}` search bounds of the
spec's end-to-end example. -/
noncomputable def exampleSearchBounds : GeoBounds :=
  { north := 1, south := 0, east := 1, west := 0 }

/-- The `{north:0.1, south:0.0, east:0.1, west:0.0}` reference tile of the
spec's end-to-end example. -/
noncomputable def exampleRefTile : GeoBounds :=
  { north := 0.1, south := 0, east := 0.1, west := 0 }

-- Concrete instances used by witnesses and counterexamples -----------------

/-- The persisted visited-zpid array, as read from `visited_houses.json`
(empty when the state file is absent). -/
def persistedZpids (fs : HousesFS) : List PyStr :=
  match fs.state_data with
  | some d => d.visited_zpids
  | none => []

/-- A merged batch that dedupes to 5 `listResults` and 8 `mapResults`
(all zpids distinct), the shape of the spec's integrity-check example. -/
def integrityExampleBatch : ResultBatch :=
  { listResults :=
      [⟨some (pystr "1"), 1⟩, ⟨some (pystr "2"), 2⟩, ⟨some (pystr "3"), 3⟩,
       ⟨some (pystr "4"), 4⟩, ⟨some (pystr "5"), 5⟩]
    mapResults :=
      [⟨some (pystr "1"), 1⟩, ⟨some (pystr "2"), 2⟩, ⟨some (pystr "3"), 3⟩,
       ⟨some (pystr "4"), 4⟩, ⟨some (pystr "5"), 5⟩, ⟨some (pystr "6"), 6⟩,
       ⟨some (pystr "7"), 7⟩, ⟨some (pystr "8"), 8⟩]}

/-- A fetch sequence that never satisfies a normal stop condition: every
page succeeds with listings, one `listResults` entry per page, and page 1
shows three `mapResults`, so the accumulated count stays below the target
until the `max_pages` bound cuts the loop. -/
def maxPagesExampleFetch : Nat → PageFetch := fun p =>
  if p = 1 then
    ⟨true, true, some
      { listResults := [⟨some (pystr "a1"), 1⟩]
        mapResults := [⟨some (pystr "m1"), 1⟩, ⟨some (pystr "m2"), 2⟩,
          ⟨some (pystr "m3"), 3⟩] }⟩
  else
    ⟨true, true, some
      { listResults := [⟨some (pystr "b" ++ natDigits p), p⟩], mapResults := [] }⟩

/-- The three synthetic pages of the spec's pagination example: page 1 shows
ten `mapResults`, every page contributes four fresh `listResults`. -/
def paginationExampleBatch (p : Nat) : ResultBatch :=
  { listResults :=
      [⟨some (pystr "p" ++ natDigits p ++ pystr "a"), 4 * p⟩,
       ⟨some (pystr "p" ++ natDigits p ++ pystr "b"), 4 * p + 1⟩,
       ⟨some (pystr "p" ++ natDigits p ++ pystr "c"), 4 * p + 2⟩,
       ⟨some (pystr "p" ++ natDigits p ++ pystr "d"), 4 * p + 3⟩]
    mapResults :=
      if p = 1 then
        (List.range 10).map fun k => ⟨some (pystr "m" ++ natDigits k), 100 + k⟩
      else [] }

/-- The fetch sequence of the spec's pagination example. -/
def paginationExampleFetch : Nat → PageFetch := fun p =>
  ⟨true, true, some (paginationExampleBatch p)⟩

-- Basic lemmas about the dedupe loop -------------------------------------

/-- The dedupe loop returns a sublist of its input. -/
theorem dedupeListAux_sublist (seen : List PyStr) (L : List Item) :
    (dedupeListAux seen L).Sublist L := by
  induction L generalizing seen with
  | nil => simp [dedupeListAux]
  | cons it rest ih =>
    cases hz : it.zpid with
    | none => simpa [dedupeListAux, hz] using (ih seen).cons it
    | some z =>
      by_cases h : z ≠ [] ∧ z ∉ seen
      · simpa [dedupeListAux, hz, h] using (ih (z :: seen)).cons₂ it
      · simpa [dedupeListAux, hz, h] using (ih seen).cons it

/-- Every item kept by the dedupe loop has a truthy zpid that was not in the
incoming `seen` set. -/
theorem dedupeListAux_mem_truthy {seen : List PyStr} {L : List Item} {it : Item}
    (h : it ∈ dedupeListAux seen L) :
    ∃ z, it.zpid = some z ∧ z ≠ [] ∧ z ∉ seen := by
  induction L generalizing seen with
  | nil => simp [dedupeListAux] at h
  | cons hd rest ih =>
    cases hz : hd.zpid with
    | none =>
      simp only [dedupeListAux, hz] at h
      exact ih h
    | some z =>
      simp only [dedupeListAux, hz] at h
      by_cases hc : z ≠ [] ∧ z ∉ seen
      · rw [if_pos hc] at h
        rcases List.mem_cons.mp h with h | h
        · exact ⟨z, by simpa [h] using hz, hc⟩
        · obtain ⟨w, hw, hw1, hw2⟩ := ih h
          exact ⟨w, hw, hw1, fun hm => hw2 (List.mem_cons_of_mem _ hm)⟩
      · rw [if_neg hc] at h
        exact ih h

theorem zpidsOf_nil : zpidsOf [] = [] := rfl

theorem zpidsOf_cons_none {it : Item} (L : List Item) (h : it.zpid = none) :
    zpidsOf (it :: L) = zpidsOf L := by
  simp [zpidsOf, List.filterMap_cons, h]

theorem zpidsOf_cons_empty {it : Item} (L : List Item) (h : it.zpid = some []) :
    zpidsOf (it :: L) = zpidsOf L := by
  simp [zpidsOf, List.filterMap_cons, h]

theorem zpidsOf_cons_truthy {it : Item} {z : PyStr} (L : List Item)
    (h : it.zpid = some z) (hz : z ≠ []) :
    zpidsOf (it :: L) = z :: zpidsOf L := by
  simp [zpidsOf, List.filterMap_cons, h, hz]

theorem zpidsOf_append (L M : List Item) :
    zpidsOf (L ++ M) = zpidsOf L ++ zpidsOf M := by
  simp [zpidsOf, List.filterMap_append]

/-- A truthy zpid appears in the dedupe loop's output iff it is not already
`seen` and appears in the input. -/
theorem mem_zpidsOf_dedupeListAux (seen : List PyStr) (L : List Item) (z : PyStr) :
    z ∈ zpidsOf (dedupeListAux seen L) ↔ z ∉ seen ∧ z ∈ zpidsOf L := by
  induction L generalizing seen with
  | nil => simp [dedupeListAux, zpidsOf]
  | cons it rest ih =>
    cases hz : it.zpid with
    | none =>
      rw [dedupeListAux]
      simp only [hz]
      rw [zpidsOf_cons_none rest hz]
      exact ih seen
    | some w =>
      by_cases hw : w ≠ [] ∧ w ∉ seen
      · rw [dedupeListAux]
        simp only [hz]
        rw [if_pos hw, zpidsOf_cons_truthy (dedupeListAux (w :: seen) rest) hz hw.1,
          zpidsOf_cons_truthy rest hz hw.1]
        simp only [List.mem_cons, ih (w :: seen)]
        constructor
        · rintro (hzw | ⟨hs, hmem⟩)
          · exact ⟨hzw ▸ hw.2, Or.inl hzw⟩
          · exact ⟨fun h2 => hs (Or.inr h2), Or.inr hmem⟩
        · rintro ⟨hns, hzw | hmem⟩
          · exact Or.inl hzw
          · by_cases hzw2 : z = w
            · exact Or.inl hzw2
            · refine Or.inr ⟨?_, hmem⟩
              rintro (h | h)
              · exact hzw2 h
              · exact hns h
      · rw [dedupeListAux]
        simp only [hz]
        rw [if_neg hw]
        rw [not_and_or] at hw
        rcases hw with hw | hw
        · rw [ne_eq, not_not] at hw
          rw [hw] at hz
          rw [zpidsOf_cons_empty rest hz]
          exact ih seen
        · rw [not_not] at hw
          rw [ih seen]
          by_cases hwe : w = []
          · rw [hwe] at hz
            rw [zpidsOf_cons_empty rest hz]
          · rw [zpidsOf_cons_truthy rest hz hwe]
            simp only [List.mem_cons]
            constructor
            · rintro ⟨h1, h2⟩
              exact ⟨h1, Or.inr h2⟩
            · rintro ⟨h1, hzw | h2⟩
              · exact absurd (hzw ▸ hw) h1
              · exact ⟨h1, h2⟩

/-- Running the dedupe loop twice with the same incoming `seen` set changes
nothing: its output already has pairwise-distinct truthy zpids outside
`seen`. -/
theorem dedupeListAux_idem (seen : List PyStr) (L : List Item) :
    dedupeListAux seen (dedupeListAux seen L) = dedupeListAux seen L := by
  induction L generalizing seen with
  | nil => simp [dedupeListAux]
  | cons it rest ih =>
    cases hz : it.zpid with
    | none =>
      rw [dedupeListAux]
      simp only [hz]
      exact ih seen
    | some z =>
      by_cases hc : z ≠ [] ∧ z ∉ seen
      · rw [dedupeListAux]
        simp only [hz]
        rw [if_pos hc, dedupeListAux]
        simp only [hz]
        rw [if_pos hc, ih (z :: seen)]
      · rw [dedupeListAux]
        simp only [hz]
        rw [if_neg hc]
        exact ih seen

/-- First occurrence wins: every item the dedupe loop keeps is the first item
of the input carrying its zpid. -/
theorem dedupeListAux_find? {seen : List PyStr} {L : List Item} {it : Item}
    (h : it ∈ dedupeListAux seen L) :
    L.find? (fun x => x.zpid == it.zpid) = some it := by
  induction L generalizing seen with
  | nil => simp [dedupeListAux] at h
  | cons hd rest ih =>
    obtain ⟨w, hw, hw1, hw2⟩ := dedupeListAux_mem_truthy h
    cases hz : hd.zpid with
    | none =>
      rw [dedupeListAux] at h
      simp only [hz] at h
      rw [List.find?_cons_of_neg, ih h]
      simp [hz, hw]
    | some z =>
      by_cases hc : z ≠ [] ∧ z ∉ seen
      · rw [dedupeListAux] at h
        simp only [hz] at h
        rw [if_pos hc] at h
        rcases List.mem_cons.mp h with h | h
        · subst h
          rw [List.find?_cons_of_pos]
          simp
        · obtain ⟨w2, hv, hv1, hv2⟩ := dedupeListAux_mem_truthy h
          rw [List.find?_cons_of_neg, ih h]
          have : z ≠ w2 := fun he => hv2 (he ▸ List.mem_cons_self z seen)
          simp [hz, hv, this]
      · rw [dedupeListAux] at h
        simp only [hz] at h
        rw [if_neg hc] at h
        rw [List.find?_cons_of_neg, ih h]
        have : z ≠ w := by
          intro he
          subst he
          rw [not_and_or, ne_eq, not_not, not_not] at hc
          rcases hc with hc | hc
          · exact hw1 hc
          · exact hw2 hc
        simp [hz, hw, this]

/-- The zpids surviving the dedupe loop are pairwise distinct. -/
theorem dedupeListAux_nodup (seen : List PyStr) (L : List Item) :
    (zpidsOf (dedupeListAux seen L)).Nodup := by
  induction L generalizing seen with
  | nil => simp [dedupeListAux, zpidsOf]
  | cons it rest ih =>
    cases hz : it.zpid with
    | none =>
      rw [dedupeListAux]
      simp only [hz]
      exact ih seen
    | some z =>
      by_cases hc : z ≠ [] ∧ z ∉ seen
      · rw [dedupeListAux]
        simp only [hz]
        rw [if_pos hc, zpidsOf_cons_truthy (dedupeListAux (z :: seen) rest) hz hc.1,
          List.nodup_cons]
        refine ⟨fun hmem => ?_, ih (z :: seen)⟩
        exact ((mem_zpidsOf_dedupeListAux _ rest z).mp hmem).1 (List.mem_cons_self z seen)
      · rw [dedupeListAux]
        simp only [hz]
        rw [if_neg hc]
        exact ih seen

-- Helper lemmas: set-as-list operations --------------------------------------

theorem mem_insertOnce {α : Type} [DecidableEq α] {l : List α} {x y : α} :
    y ∈ insertOnce l x ↔ y ∈ l ∨ y = x := by
  unfold insertOnce
  by_cases h : x ∈ l
  · rw [if_pos h]
    constructor
    · exact Or.inl
    · rintro (hy | rfl)
      · exact hy
      · exact h
  · rw [if_neg h]
    simp

theorem mem_insertOnce_self {α : Type} [DecidableEq α] (l : List α) (x : α) :
    x ∈ insertOnce l x :=
  mem_insertOnce.mpr (Or.inr rfl)

theorem mem_insertOnce_of_mem {α : Type} [DecidableEq α] {l : List α} (x : α)
    {y : α} (h : y ∈ l) : y ∈ insertOnce l x :=
  mem_insertOnce.mpr (Or.inl h)

theorem mem_setOfList {l : List PyStr} {y : PyStr} :
    y ∈ setOfList l ↔ y ∈ l := by
  have main : ∀ (l acc : List PyStr) (y : PyStr),
      y ∈ l.foldl insertOnce acc ↔ y ∈ acc ∨ y ∈ l := by
    intro l
    induction l with
    | nil => simp
    | cons hd tl ih =>
      intro acc y
      rw [List.foldl_cons, ih (insertOnce acc hd) y, mem_insertOnce]
      simp only [List.mem_cons]
      tauto
  unfold setOfList
  rw [main l [] y]
  simp

theorem mem_reconcileZpids_of_mem (files : List PyStr) {acc : List PyStr}
    {y : PyStr} (h : y ∈ acc) : y ∈ reconcileZpids files acc := by
  unfold reconcileZpids
  induction files generalizing acc with
  | nil => simpa using h
  | cons f rest ih =>
    rw [List.foldl_cons]
    apply ih
    repeat' split
    all_goals first | exact h | exact mem_insertOnce_of_mem f h

theorem mem_of_mem_reconcileZpids {files acc : List PyStr} {y : PyStr}
    (h : y ∈ reconcileZpids files acc) : y ∈ acc ∨ y ∈ files := by
  unfold reconcileZpids at h
  induction files generalizing acc with
  | nil => exact Or.inl (by simpa using h)
  | cons f rest ih =>
    rw [List.foldl_cons] at h
    have step :
        ∀ z, z ∈ (if f = pystr "visited_houses" then acc
          else if pyStartsWith f (pystr "nullzpid_") then acc
          else if isDigitStr f then insertOnce acc f else acc) →
          z ∈ acc ∨ z = f := by
      intro z hz
      revert hz
      repeat' split
      all_goals intro hz
      all_goals first
        | exact Or.inl hz
        | exact (mem_insertOnce.mp hz).imp id id
    rcases ih h with hy | hy
    · rcases step y hy with hy | hy
      · exact Or.inl hy
      · exact Or.inr (by simp [hy])
    · exact Or.inr (List.mem_cons_of_mem _ hy)

-- Claim theorems -------------------------------------------------------------

/-- Claim C9: `dedupe_results` is idempotent — applying it twice yields the
same `listResults` and `mapResults` arrays as applying it once. -/
theorem claim9_dedupe_idempotent (r : ResultBatch) :
    dedupe_results (dedupe_results r) = dedupe_results r := by
  simp [dedupe_results, dedupeListAux_idem]

/-- Claim C6 counterexample: contrary to the claim, an entry with no
identifier (`zpid = None`) is dropped by `dedupe_results`, not kept — on the
one-entry batch below the deduplicated `listResults` does not retain it. -/
theorem claim6_counterexample :
    ¬ (Item.mk none 0 ∈
        (dedupe_results { listResults := [⟨none, 0⟩], mapResults := [] }).listResults) := by
  decide

/-- Behaviour of one deduplicated array (shared by both components):
it is a sublist of the input, every kept entry has a truthy zpid, the
distinct truthy zpids are exactly those of the input, they are pairwise
distinct, and each kept entry is the input's first entry with its zpid. -/
theorem dedupe_component_spec (L : List Item) :
    (dedupeListAux [] L).Sublist L
    ∧ (∀ it ∈ dedupeListAux [] L, ∃ z, it.zpid = some z ∧ z ≠ [])
    ∧ (∀ z, z ∈ zpidsOf (dedupeListAux [] L) ↔ z ∈ zpidsOf L)
    ∧ (zpidsOf (dedupeListAux [] L)).Nodup
    ∧ (∀ it ∈ dedupeListAux [] L,
        L.find? (fun x => x.zpid == it.zpid) = some it) := by
  refine ⟨dedupeListAux_sublist [] L, ?_, ?_, dedupeListAux_nodup [] L, ?_⟩
  · intro it hit
    obtain ⟨z, hz, hz1, _⟩ := dedupeListAux_mem_truthy hit
    exact ⟨z, hz, hz1⟩
  · intro z
    rw [mem_zpidsOf_dedupeListAux]
    simp
  · intro it hit
    exact dedupeListAux_find? hit

/-- Claim C6 (amended): `dedupe_results` deduplicates `listResults` and
`mapResults` independently; within each array the first occurrence of each
truthy zpid wins and later entries with the same zpid are dropped, but —
unlike the claim states — an entry with no (or empty) zpid is dropped as
well, not kept: every surviving entry has a truthy zpid, the surviving
zpids are exactly the input's truthy zpids with no duplicates, and each
survivor is the first input entry bearing its zpid. -/
theorem claim6_dedupe_amended (r : ResultBatch) :
    ((dedupe_results r).listResults.Sublist r.listResults
      ∧ (∀ it ∈ (dedupe_results r).listResults, ∃ z, it.zpid = some z ∧ z ≠ [])
      ∧ (∀ z, z ∈ zpidsOf (dedupe_results r).listResults ↔ z ∈ zpidsOf r.listResults)
      ∧ (zpidsOf (dedupe_results r).listResults).Nodup
      ∧ (∀ it ∈ (dedupe_results r).listResults,
          r.listResults.find? (fun x => x.zpid == it.zpid) = some it))
    ∧ ((dedupe_results r).mapResults.Sublist r.mapResults
      ∧ (∀ it ∈ (dedupe_results r).mapResults, ∃ z, it.zpid = some z ∧ z ≠ [])
      ∧ (∀ z, z ∈ zpidsOf (dedupe_results r).mapResults ↔ z ∈ zpidsOf r.mapResults)
      ∧ (zpidsOf (dedupe_results r).mapResults).Nodup
      ∧ (∀ it ∈ (dedupe_results r).mapResults,
          r.mapResults.find? (fun x => x.zpid == it.zpid) = some it)) :=
  ⟨dedupe_component_spec r.listResults, dedupe_component_spec r.mapResults⟩

/-- Claim C6 (amended) witness: concrete check on a batch with a duplicate,
a fresh, and an identifier-less entry. -/
theorem claim6_dedupe_amended_witness :
    ∀ it ∈ (dedupe_results
        { listResults := [⟨some (pystr "1"), 0⟩, ⟨some (pystr "1"), 1⟩, ⟨none, 2⟩]
          mapResults := [] }).listResults,
      [(⟨some (pystr "1"), 0⟩ : Item), ⟨some (pystr "1"), 1⟩, ⟨none, 2⟩].find?
        (fun x => x.zpid == it.zpid) = some it :=
  (claim6_dedupe_amended
    { listResults := [⟨some (pystr "1"), 0⟩, ⟨some (pystr "1"), 1⟩, ⟨none, 2⟩]
      mapResults := [] }).1.2.2.2.2

/-- Claim C3: whenever the merged-and-deduplicated result has strictly fewer
`listResults` than `mapResults`, `pyzill_scraper_master` raises the
data-integrity `ValueError`, and on that path `save_results` is never
reached, so the tile's artifact is not saved. -/
theorem claim3_integrity_error (scraped : ResultBatch) (save empty_recorded : Bool)
    (h : (dedupe_results scraped).listResults.length <
      (dedupe_results scraped).mapResults.length) :
    pyzill_scraper_master_core scraped save empty_recorded = Except.error ()
    ∧ master_saved (pyzill_scraper_master_core scraped save empty_recorded) = false := by
  have hlt : page_count (dedupe_results scraped) < house_count (dedupe_results scraped) := h
  unfold pyzill_scraper_master_core
  rw [if_pos hlt]
  exact ⟨rfl, rfl⟩

/-- Claim C3 witness: the spec's 5-vs-8 example raises the integrity error
and saves nothing. -/
theorem claim3_integrity_error_witness :
    (dedupe_results integrityExampleBatch).listResults.length <
      (dedupe_results integrityExampleBatch).mapResults.length
    ∧ pyzill_scraper_master_core integrityExampleBatch true false = Except.error ()
    ∧ master_saved (pyzill_scraper_master_core integrityExampleBatch true false) = false :=
  ⟨by decide, (claim3_integrity_error integrityExampleBatch true false (by decide)).1,
    (claim3_integrity_error integrityExampleBatch true false (by decide)).2⟩

-- Helper lemmas: splitting on a separator ------------------------------------

theorem splitOnChar_ne_nil (sep : Char) (s : PyStr) : splitOnChar sep s ≠ [] := by
  cases s with
  | nil => simp [splitOnChar]
  | cons c rest =>
    rw [splitOnChar]
    by_cases h : c = sep
    · simp [h]
    · rw [if_neg h]
      cases hr : splitOnChar sep rest <;> simp

theorem splitOnChar_of_not_mem {sep : Char} {s : PyStr} (h : sep ∉ s) :
    splitOnChar sep s = [s] := by
  induction s with
  | nil => simp [splitOnChar]
  | cons c rest ih =>
    rw [splitOnChar]
    have hc : ¬ c = sep := fun he => h (by simp [he])
    rw [if_neg hc, ih (fun hm => h (List.mem_cons_of_mem _ hm))]

theorem splitOnChar_append_sep {sep : Char} {a : PyStr} (b : PyStr)
    (ha : sep ∉ a) : splitOnChar sep (a ++ sep :: b) = a :: splitOnChar sep b := by
  induction a with
  | nil =>
    rw [List.nil_append, splitOnChar, if_pos rfl]
  | cons c a2 ih =>
    have hc : ¬ c = sep := fun he => ha (by simp [he])
    have ih2 := ih (fun hm => ha (List.mem_cons_of_mem _ hm))
    rw [List.cons_append, splitOnChar, if_neg hc, ih2]

-- Claim C10 ------------------------------------------------------------------

/-- Claim C10: the filename function is only defined on inputs whose latitude
string contains a decimal point.  For `str(ne_lat)` of the form
`<integer-part>.<decimal-part>` it deterministically returns
`tile_<integer-part>_<decimal-part>_long_<sw_long with '.' replaced by '_'>.json`;
for a latitude string containing no `.` (e.g. an integer latitude) the
`lat_parts[1]` subscript raises `IndexError` instead of returning. -/
theorem claim10_tile_filename (intPart decPart lon : PyStr)
    (h1 : '.' ∉ intPart) (h2 : '.' ∉ decPart) :
    generate_tile_filename_by_coords (intPart ++ '.' :: decPart) lon =
      some (pystr "tile_" ++ intPart ++ '_' :: decPart ++ pystr "_long_" ++
        pyReplaceDotUnderscore lon ++ pystr ".json")
    ∧ ∀ s : PyStr, '.' ∉ s → generate_tile_filename_by_coords s lon = none := by
  constructor
  · unfold generate_tile_filename_by_coords
    rw [splitOnChar_append_sep decPart h1, splitOnChar_of_not_mem h2]
    simp
  · intro s hs
    unfold generate_tile_filename_by_coords
    rw [splitOnChar_of_not_mem hs]

/-- Claim C10 witness: `37.5` and `-122.25` produce the expected filename,
while the integer string `37` hits the error escape. -/
theorem claim10_tile_filename_witness :
    ('.' ∉ pystr "37") ∧ ('.' ∉ pystr "5")
    ∧ generate_tile_filename_by_coords (pystr "37.5") (pystr "-122.25") =
        some (pystr "tile_37_5_long_-122_25.json")
    ∧ generate_tile_filename_by_coords (pystr "37") (pystr "-122.25") = none := by
  refine ⟨by decide, by decide, ?_, ?_⟩
  · have h := (claim10_tile_filename (pystr "37") (pystr "5") (pystr "-122.25")
      (by decide) (by decide)).1
    have e1 : pystr "37" ++ '.' :: pystr "5" = pystr "37.5" := by decide
    have e2 : pystr "tile_" ++ pystr "37" ++ '_' :: pystr "5" ++ pystr "_long_" ++
        pyReplaceDotUnderscore (pystr "-122.25") ++ pystr ".json" =
        pystr "tile_37_5_long_-122_25.json" := by decide
    rw [e1, e2] at h
    exact h
  · exact (claim10_tile_filename (pystr "x") (pystr "x") (pystr "-122.25")
      (by decide) (by decide)).2 (pystr "37") (by decide)

-- Helper lemmas: crawl state store -------------------------------------------

/-- The visited-zpid set `load_visited_houses` returns is the reconciliation
scan applied to the persisted array read as a set. -/
theorem load_visited_houses_fst (fs : HousesFS) :
    (load_visited_houses fs).1 =
      reconcileZpids fs.files (setOfList (persistedZpids fs)) := by
  cases h : fs.state_data <;>
    simp [load_visited_houses, persistedZpids, h, setOfList]

/-- Every zpid of the persisted state file survives a reload. -/
theorem mem_load_fst_of_persisted {fs : HousesFS} {y : PyStr}
    (h : y ∈ persistedZpids fs) : y ∈ (load_visited_houses fs).1 := by
  rw [load_visited_houses_fst]
  exact mem_reconcileZpids_of_mem fs.files (mem_setOfList.mpr h)

/-- After `save_visited_house` with a truthy zpid, that zpid is in the
persisted state file. -/
theorem mem_persisted_save_visited_house (fs : HousesFS) {z : PyStr}
    (hz : z ≠ []) (url : Option PyStr) :
    z ∈ persistedZpids (save_visited_house fs (some z) url) := by
  unfold save_visited_house persistedZpids
  simp only [if_pos hz]
  exact mem_insertOnce_self _ z

-- Claim C7 -------------------------------------------------------------------

/-- Claim C7: (a) after `markVisited("123")` (= `save_visited_house`), a
state reload (`load_visited_houses`) answers `isVisited("123")` as true,
whatever the prior file-system state and url argument were; (b) loading
with no prior state file from an artifact directory containing `123.json`,
`456.json` and a reserved `nullzpid_1.json` placeholder reconciles to the
visited identifier set `{"123", "456"}` (placeholders, being identity-less,
and the state file itself, skipped by name, are excluded), and the
reconciled state is immediately re-persisted. -/
theorem claim7_crawl_state_store (fs : HousesFS) (url : Option PyStr) :
    is_visited
      (load_visited_houses (save_visited_house fs (some (pystr "123")) url)).1
      (load_visited_houses (save_visited_house fs (some (pystr "123")) url)).2.1
      (some (pystr "123")) (pystr "someurl") = true
    ∧ (load_visited_houses
        ⟨none, [pystr "123", pystr "nullzpid_1", pystr "456"]⟩).1 =
        [pystr "123", pystr "456"]
    ∧ (load_visited_houses
        ⟨none, [pystr "123", pystr "nullzpid_1", pystr "456"]⟩).2.2.state_data =
        some ⟨[pystr "123", pystr "456"], []⟩ := by
  refine ⟨?_, by decide, by decide⟩
  have hmem : pystr "123" ∈
      (load_visited_houses (save_visited_house fs (some (pystr "123")) url)).1 :=
    mem_load_fst_of_persisted
      (mem_persisted_save_visited_house fs (by decide) url)
  have hc : ((load_visited_houses
      (save_visited_house fs (some (pystr "123")) url)).1).contains
        (pystr "123") = true :=
    List.elem_eq_true_of_mem hmem
  simp [is_visited, hc]
  exact Or.inl ⟨by decide, hmem⟩

-- Helper lemmas: save/mark steps ---------------------------------------------

/-- When `save_house_data` returns a path for a truthy zpid, that zpid's
file is on disk afterwards. -/
theorem save_house_data_mem {files : List PyStr} {z : PyStr} {ok : Bool}
    {p : PyStr} (hz : z ≠ [])
    (h : (save_house_data files (some z) ok).1 = some p) :
    z ∈ (save_house_data files (some z) ok).2 := by
  unfold save_house_data at h ⊢
  simp only [if_pos hz] at h ⊢
  by_cases hf : z ∈ files
  · rw [if_pos hf] at h
    cases h
  · rw [if_neg hf] at h ⊢
    cases ok with
    | false => simp at h
    | true =>
      simp only [if_pos rfl]
      exact List.mem_append_right _ (by simp)

/-- `save_house_data` never removes a file. -/
theorem save_house_data_files_mono {files : List PyStr} {zpid : Option PyStr}
    {ok : Bool} {y : PyStr} (h : y ∈ files) :
    y ∈ (save_house_data files zpid ok).2 := by
  unfold save_house_data
  dsimp only
  repeat' split
  all_goals simp [h]

/-- Re-persisting the state never touches the artifact files. -/
theorem load_visited_houses_files (fs : HousesFS) :
    (load_visited_houses fs).2.2.files = fs.files := by
  unfold load_visited_houses
  dsimp only
  split <;> rfl

/-- `save_visited_house` only writes the state file, not artifacts. -/
theorem save_visited_house_files (fs : HousesFS) (zpid url : Option PyStr) :
    (save_visited_house fs zpid url).files = fs.files := by
  unfold save_visited_house
  dsimp only
  exact load_visited_houses_files fs

/-- The state file `save_visited_house` writes: the reloaded zpid set with
the truthy zpid inserted. -/
theorem persistedZpids_save_visited_house (fs : HousesFS)
    (zpid url : Option PyStr) :
    persistedZpids (save_visited_house fs zpid url) =
      (match zpid with
       | some z =>
         if z ≠ [] then insertOnce (load_visited_houses fs).1 z
         else (load_visited_houses fs).1
       | none => (load_visited_houses fs).1) := by
  unfold save_visited_house persistedZpids
  rfl

-- Claim C4 -------------------------------------------------------------------

/-- Claim C4 counterexample: a tile whose pagination produced zero houses is
marked visited by `visit_all_links` even when the artifact write failed —
so "marked visited only after its artifact has been successfully written"
is false at this concrete input (empty disk, `total_houses = 0`,
`write_ok = false`): index 5 lands in the visited set while its artifact is
absent. -/
theorem claim4_counterexample :
    ¬ (5 ∈ (process_tile_outcome true ⟨[], []⟩
        ⟨5, pystr "tile_37_5_long_x.json", true, false⟩ 0).visited_indexes →
      pystr "tile_37_5_long_x.json" ∈ (process_tile_outcome true ⟨[], []⟩
        ⟨5, pystr "tile_37_5_long_x.json", true, false⟩ 0).artifacts) := by
  decide

/-- Claim C4 (amended): a unit's key is added to the persisted visited set
only after its artifact was successfully written — **except** that a tile
whose run produced zero houses is marked visited even if the artifact write
failed.  Concretely: a tile index newly marked visited was either already
visited, or its artifact file is on disk afterwards, or it had
`total_houses = 0`; a listing zpid newly marked visited was either already
persisted or its artifact file is on disk afterwards (no exception on the
listing side). -/
theorem claim4_visited_after_save_amended :
    (∀ (si : Bool) (st : TileFS) (w : TilePagework) (th : Nat),
      w.index ∈ (process_tile_outcome si st w th).visited_indexes →
      w.index ∈ st.visited_indexes
        ∨ w.filename ∈ (process_tile_outcome si st w th).artifacts
        ∨ th = 0)
    ∧ (∀ (fs : HousesFS) (w : HouseWork) (z : PyStr),
      z ∈ persistedZpids (process_house fs w) →
      z ∈ persistedZpids fs ∨ z ∈ (process_house fs w).files) := by
  constructor
  · intro si st w th h
    by_cases hs : (si && w.has_coords && w.write_ok) = true
    · refine Or.inr (Or.inl ?_)
      unfold process_tile_outcome
      simp only [hs, if_pos rfl, Bool.true_or, save_visited_tile]
      exact mem_insertOnce_self _ _
    · rw [Bool.not_eq_true] at hs
      by_cases hth : th = 0
      · exact Or.inr (Or.inr hth)
      · refine Or.inl ?_
        unfold process_tile_outcome at h
        simp only [hs, Bool.false_or, Bool.false_eq_true, if_false,
          beq_iff_eq, hth, save_visited_tile] at h
        exact h
  · intro fs w z h
    rcases hsd : save_house_data fs.files w.zpid w.write_ok with ⟨sp, files2⟩
    unfold process_house at h ⊢
    rw [hsd] at h ⊢
    cases sp with
    | none => exact Or.inl h
    | some p =>
      rw [persistedZpids_save_visited_house] at h
      rw [save_visited_house_files]
      have hload : ∀ y, y ∈ (load_visited_houses ⟨fs.state_data, files2⟩).1 →
          y ∈ persistedZpids fs ∨ y ∈ files2 := by
        intro y hy
        rw [load_visited_houses_fst] at hy
        rcases mem_of_mem_reconcileZpids hy with hy | hy
        · exact Or.inl (mem_setOfList.mp hy)
        · exact Or.inr hy
      cases hzp : w.zpid with
      | none =>
        rw [hzp] at h
        exact hload z h
      | some z0 =>
        rw [hzp] at h
        dsimp only at h
        by_cases hz0 : z0 ≠ []
        · rw [if_pos hz0] at h
          dsimp only at h
          rw [if_pos hz0] at h
          rcases mem_insertOnce.mp h with h2 | h2
          · exact hload z h2
          · subst h2
            refine Or.inr ?_
            rw [hzp] at hsd
            have hm : z ∈ (save_house_data fs.files (some z) w.write_ok).2 :=
              save_house_data_mem hz0 (by rw [hsd])
            rw [hsd] at hm
            exact hm
        · rw [not_not] at hz0
          subst hz0
          rw [if_neg (by simp)] at h
          dsimp only at h
          exact hload z h

/-- Claim C4 (amended) witness: a truthy-zpid listing whose artifact write
succeeded is marked visited with its file on disk. -/
theorem claim4_visited_after_save_amended_witness :
    pystr "99" ∈ persistedZpids
        (process_house ⟨none, []⟩ ⟨some (pystr "99"), pystr "u", true⟩) →
    pystr "99" ∈ persistedZpids (⟨none, []⟩ : HousesFS)
      ∨ pystr "99" ∈ (process_house ⟨none, []⟩
          ⟨some (pystr "99"), pystr "u", true⟩).files :=
  claim4_visited_after_save_amended.2 ⟨none, []⟩ ⟨some (pystr "99"), pystr "u", true⟩
    (pystr "99")

-- Claim C5 -------------------------------------------------------------------

/-- Claim C5 counterexample: a pagination run that exhausts the `max_pages`
bound (final page number exceeds the bound) still gets its tile marked
visited by `visit_all_links` — with `max_pages = 2` and pages that never
reach the page-1 target, index 7 is marked visited after a successful save,
contradicting "the tile is not marked complete/visited on that path". -/
theorem claim5_counterexample :
    (visit_zillow_link_with_pagination maxPagesExampleFetch 2).page_number > 2
    ∧ 7 ∈ (process_tile_paginate true maxPagesExampleFetch 2 ⟨[], []⟩
        ⟨7, pystr "tile_x", true, true⟩).visited_indexes := by
  decide

/-- Claim C5 (amended): reaching the `max_pages` safety bound is only
reported (a log line); the partial results flow on unchanged, and the tile
IS saved and marked visited whenever the save succeeds — it is not left
unvisited for a retry.  Formally: on the `max_pages` path, with truthy
coordinates and a succeeding write, the tile's index is marked visited (and
its artifact is written). -/
theorem claim5_max_pages_amended (fetch : Nat → PageFetch) (max_pages : Nat)
    (st : TileFS) (w : TilePagework)
    (_hreach : (visit_zillow_link_with_pagination fetch max_pages).page_number
      > max_pages)
    (hcoords : w.has_coords = true) (hw : w.write_ok = true) :
    w.index ∈ (process_tile_paginate true fetch max_pages st w).visited_indexes
    ∧ w.filename ∈ (process_tile_paginate true fetch max_pages st w).artifacts := by
  unfold process_tile_paginate process_tile_outcome
  simp only [hcoords, hw, Bool.and_true, Bool.true_and, if_pos rfl, Bool.true_or]
  exact ⟨mem_insertOnce_self _ _, mem_insertOnce_self _ _⟩

/-- Claim C5 (amended) witness: the concrete aborted run above, with its
hypotheses discharged. -/
theorem claim5_max_pages_amended_witness :
    ((visit_zillow_link_with_pagination maxPagesExampleFetch 2).page_number > 2)
    ∧ 7 ∈ (process_tile_paginate true maxPagesExampleFetch 2 ⟨[], []⟩
        ⟨7, pystr "tile_x", true, true⟩).visited_indexes
    ∧ pystr "tile_x" ∈ (process_tile_paginate true maxPagesExampleFetch 2 ⟨[], []⟩
        ⟨7, pystr "tile_x", true, true⟩).artifacts :=
  ⟨by decide,
    (claim5_max_pages_amended maxPagesExampleFetch 2 ⟨[], []⟩
      ⟨7, pystr "tile_x", true, true⟩ (by decide) rfl rfl).1,
    (claim5_max_pages_amended maxPagesExampleFetch 2 ⟨[], []⟩
      ⟨7, pystr "tile_x", true, true⟩ (by decide) rfl rfl).2⟩

-- Helper lemmas: unfolding one pagination iteration --------------------------

/-- One successful loop iteration whose stop condition does not fire:
accumulate and advance to the next page. -/
theorem paginateAux_step_continue (fetch : Nat → PageFetch)
    (fuel page acc hc : Nat) (pages : List PageFetch)
    (collected : List ResultBatch) (b : ResultBatch)
    (hs : (fetch page).success = true) (hl : (fetch page).has_listings = true)
    (hsr : (fetch page).search_results = some b)
    (hcond : ¬(acc + b.listResults.length ≥
        (if page = 1 then b.mapResults.length else hc)
      ∨ ((if page = 1 then b.mapResults.length else hc) = 0
          ∧ b.listResults.length = 0)
      ∨ (page > 1 ∧ b.listResults.length = 0))) :
    paginateAux fetch (fuel + 1) page acc hc pages collected =
      paginateAux fetch fuel (page + 1) (acc + b.listResults.length)
        (if page = 1 then b.mapResults.length else hc)
        (pages ++ [fetch page]) (collected ++ [b]) := by
  rw [paginateAux]
  dsimp only
  rw [hs, hl, hsr]
  dsimp only
  rw [if_neg (by simp)]
  simp only [fetch_page_count, fetch_house_count, hsr, page_count, house_count]
  rw [if_neg hcond]

/-- One successful loop iteration whose stop condition fires: the loop
breaks with the accumulated state. -/
theorem paginateAux_step_stop (fetch : Nat → PageFetch)
    (fuel page acc hc : Nat) (pages : List PageFetch)
    (collected : List ResultBatch) (b : ResultBatch)
    (hs : (fetch page).success = true) (hl : (fetch page).has_listings = true)
    (hsr : (fetch page).search_results = some b)
    (hcond : acc + b.listResults.length ≥
        (if page = 1 then b.mapResults.length else hc)
      ∨ ((if page = 1 then b.mapResults.length else hc) = 0
          ∧ b.listResults.length = 0)
      ∨ (page > 1 ∧ b.listResults.length = 0)) :
    paginateAux fetch (fuel + 1) page acc hc pages collected =
      ⟨pages ++ [fetch page], collected ++ [b], acc + b.listResults.length,
        if page = 1 then b.mapResults.length else hc, page⟩ := by
  rw [paginateAux]
  dsimp only
  rw [hs, hl, hsr]
  dsimp only
  rw [if_neg (by simp)]
  simp only [fetch_page_count, fetch_house_count, hsr, page_count, house_count]
  rw [if_pos hcond]

-- Claim C1 -------------------------------------------------------------------

/-- Claim C1: for any fetch sequence where page 1 reports 10 `mapResults`
and pages 1-3 each succeed with listings and contribute 4 `listResults`,
the pagination loop (with any `max_pages ≥ 3`, in particular the default
50) stops after exactly 3 pages — the accumulated count 4+4+4 = 12 first
reaches the target 10 fixed from page 1 — and the returned `total_houses`
is the length of the `mapResults` of the deduplicated merged results. -/
theorem claim1_pagination_stops_after_three (fetch : Nat → PageFetch)
    (max_pages : Nat) (b1 b2 b3 : ResultBatch)
    (hmp : 3 ≤ max_pages)
    (h1 : fetch 1 = ⟨true, true, some b1⟩)
    (h2 : fetch 2 = ⟨true, true, some b2⟩)
    (h3 : fetch 3 = ⟨true, true, some b3⟩)
    (hb1l : b1.listResults.length = 4) (hb1m : b1.mapResults.length = 10)
    (hb2l : b2.listResults.length = 4) (hb3l : b3.listResults.length = 4) :
    (visit_zillow_link_with_pagination fetch max_pages).all_page_results.length = 3
    ∧ (visit_zillow_link_with_pagination fetch max_pages).search_results_list
        = [b1, b2, b3]
    ∧ (visit_zillow_link_with_pagination fetch max_pages).accumulated_pc = 12
    ∧ (visit_zillow_link_with_pagination fetch max_pages).hc = 10
    ∧ (visit_zillow_link_with_pagination fetch max_pages).page_number = 3
    ∧ ∃ m, merge_search_results [b1, b2, b3] = some m
        ∧ pag_total_houses (visit_zillow_link_with_pagination fetch max_pages)
            = (dedupe_results m).mapResults.length := by
  obtain ⟨k, hk⟩ : ∃ k, max_pages = k + 3 := ⟨max_pages - 3, by omega⟩
  have hs1 : (fetch 1).success = true := by rw [h1]
  have hl1 : (fetch 1).has_listings = true := by rw [h1]
  have hr1 : (fetch 1).search_results = some b1 := by rw [h1]
  have hs2 : (fetch 2).success = true := by rw [h2]
  have hl2 : (fetch 2).has_listings = true := by rw [h2]
  have hr2 : (fetch 2).search_results = some b2 := by rw [h2]
  have hs3 : (fetch 3).success = true := by rw [h3]
  have hl3 : (fetch 3).has_listings = true := by rw [h3]
  have hr3 : (fetch 3).search_results = some b3 := by rw [h3]
  have estate : visit_zillow_link_with_pagination fetch max_pages =
      ⟨[fetch 1, fetch 2, fetch 3], [b1, b2, b3], 12, 10, 3⟩ := by
    unfold visit_zillow_link_with_pagination
    rw [hk, show k + 3 = (k + 2) + 1 from rfl,
      paginateAux_step_continue fetch (k + 2) 1 0 0 [] [] b1 hs1 hl1 hr1
        (by rw [hb1l, hb1m]; simp),
      show k + 2 = (k + 1) + 1 from rfl,
      paginateAux_step_continue fetch (k + 1) 2 (0 + b1.listResults.length)
        (if 1 = 1 then b1.mapResults.length else 0) ([] ++ [fetch 1]) ([] ++ [b1])
        b2 hs2 hl2 hr2 (by rw [hb1l, hb1m, hb2l]; simp),
      show k + 1 = k + 1 from rfl,
      paginateAux_step_stop fetch k 3
        (0 + b1.listResults.length + b2.listResults.length)
        (if 2 = 1 then b2.mapResults.length
          else if 1 = 1 then b1.mapResults.length else 0)
        ([] ++ [fetch 1] ++ [fetch 2]) ([] ++ [b1] ++ [b2]) b3 hs3 hl3 hr3
        (by rw [hb1l, hb1m, hb2l, hb3l]; simp)]
    rw [hb1l, hb1m, hb2l, hb3l]
    simp
  rw [estate]
  refine ⟨rfl, rfl, rfl, rfl, rfl, ?_⟩
  refine ⟨⟨b1.listResults ++ [b2, b3].flatMap (·.listResults), b1.mapResults⟩,
    rfl, ?_⟩
  rfl

/-- Claim C1 witness: the concrete three-page example evaluates as the
theorem states. -/
theorem claim1_pagination_stops_after_three_witness :
    (visit_zillow_link_with_pagination paginationExampleFetch 50).all_page_results.length = 3
    ∧ (visit_zillow_link_with_pagination paginationExampleFetch 50).search_results_list
        = [paginationExampleBatch 1, paginationExampleBatch 2, paginationExampleBatch 3]
    ∧ (visit_zillow_link_with_pagination paginationExampleFetch 50).accumulated_pc = 12
    ∧ (visit_zillow_link_with_pagination paginationExampleFetch 50).hc = 10
    ∧ (visit_zillow_link_with_pagination paginationExampleFetch 50).page_number = 3
    ∧ ∃ m, merge_search_results [paginationExampleBatch 1, paginationExampleBatch 2,
        paginationExampleBatch 3] = some m
        ∧ pag_total_houses (visit_zillow_link_with_pagination paginationExampleFetch 50)
            = (dedupe_results m).mapResults.length :=
  claim1_pagination_stops_after_three paginationExampleFetch 50
    (paginationExampleBatch 1) (paginationExampleBatch 2) (paginationExampleBatch 3)
    (by omega) (by decide) (by decide) (by decide)
    (by decide) (by decide) (by decide) (by decide)

-- Claim C8 -------------------------------------------------------------------

theorem zpidsOf_flatMap (L : List ResultBatch) :
    zpidsOf (L.flatMap (·.listResults)) = L.flatMap fun b => zpidsOf b.listResults := by
  induction L with
  | nil => rfl
  | cons b rest ih => simp [List.flatMap_cons, zpidsOf_append, ih]

/-- Claim C8: merging a non-empty batch list (first batch as baseline,
later batches appending their `listResults`) and then deduplicating yields
a `listResults` array whose set of distinct identifiers is exactly the
union of the identifiers across the inputs' `listResults`: nothing lost,
nothing invented. -/
theorem claim8_merge_dedupe_preserves_ids (batches : List ResultBatch)
    (m : ResultBatch) (h : merge_search_results batches = some m) (z : PyStr) :
    z ∈ zpidsOf (dedupe_results m).listResults ↔
      ∃ b ∈ batches, z ∈ zpidsOf b.listResults := by
  cases batches with
  | nil => simp [merge_search_results] at h
  | cons b0 rest =>
    simp only [merge_search_results, Option.some.injEq] at h
    subst h
    rw [dedupe_results]
    dsimp only
    rw [mem_zpidsOf_dedupeListAux]
    simp only [List.not_mem_nil, not_false_eq_true, true_and]
    rw [zpidsOf_append, zpidsOf_flatMap]
    simp only [List.mem_append, List.mem_flatMap, List.mem_cons]
    constructor
    · rintro (hz | ⟨b, hb, hz⟩)
      · exact ⟨b0, Or.inl rfl, hz⟩
      · exact ⟨b, Or.inr hb, hz⟩
    · rintro ⟨b, hb | hb, hz⟩
      · exact Or.inl (hb ▸ hz)
      · exact Or.inr ⟨b, hb, hz⟩

/-- Claim C8 witness: a two-batch concrete instance, checked at the
identifier `"8"` contributed by the second batch. -/
theorem claim8_merge_dedupe_preserves_ids_witness :
    merge_search_results
        [{ listResults := [⟨some (pystr "7"), 0⟩], mapResults := [⟨some (pystr "9"), 1⟩] },
         { listResults := [⟨some (pystr "8"), 2⟩], mapResults := [] }] =
      some { listResults := [⟨some (pystr "7"), 0⟩, ⟨some (pystr "8"), 2⟩]
             mapResults := [⟨some (pystr "9"), 1⟩] }
    ∧ (pystr "8" ∈ zpidsOf (dedupe_results
          { listResults := [⟨some (pystr "7"), 0⟩, ⟨some (pystr "8"), 2⟩]
            mapResults := [⟨some (pystr "9"), 1⟩] }).listResults ↔
        ∃ b ∈ [({ listResults := [⟨some (pystr "7"), 0⟩],
                  mapResults := [⟨some (pystr "9"), 1⟩] } : ResultBatch),
               { listResults := [⟨some (pystr "8"), 2⟩], mapResults := [] }],
          pystr "8" ∈ zpidsOf b.listResults) :=
  ⟨by decide,
    claim8_merge_dedupe_preserves_ids
      [{ listResults := [⟨some (pystr "7"), 0⟩], mapResults := [⟨some (pystr "9"), 1⟩] },
       { listResults := [⟨some (pystr "8"), 2⟩], mapResults := [] }]
      { listResults := [⟨some (pystr "7"), 0⟩, ⟨some (pystr "8"), 2⟩]
        mapResults := [⟨some (pystr "9"), 1⟩] }
      (by decide) (pystr "8")⟩

/-- Claim C7 witness: the store behaviour at a concrete empty state. -/
theorem claim7_crawl_state_store_witness :
    is_visited
      (load_visited_houses (save_visited_house ⟨none, []⟩ (some (pystr "123")) none)).1
      (load_visited_houses (save_visited_house ⟨none, []⟩ (some (pystr "123")) none)).2.1
      (some (pystr "123")) (pystr "someurl") = true :=
  (claim7_crawl_state_store ⟨none, []⟩ none).1

/-- Claim C9 witness: idempotence at a concrete batch with duplicates and a
zpid-less entry. -/
theorem claim9_dedupe_idempotent_witness :
    dedupe_results (dedupe_results
      { listResults := [⟨some (pystr "1"), 0⟩, ⟨some (pystr "1"), 1⟩, ⟨none, 2⟩]
        mapResults := [⟨some (pystr "2"), 3⟩, ⟨some (pystr "2"), 4⟩] }) =
    dedupe_results
      { listResults := [⟨some (pystr "1"), 0⟩, ⟨some (pystr "1"), 1⟩, ⟨none, 2⟩]
        mapResults := [⟨some (pystr "2"), 3⟩, ⟨some (pystr "2"), 4⟩] } :=
  claim9_dedupe_idempotent
    { listResults := [⟨some (pystr "1"), 0⟩, ⟨some (pystr "1"), 1⟩, ⟨none, 2⟩]
      mapResults := [⟨some (pystr "2"), 3⟩, ⟨some (pystr "2"), 4⟩] }

-- Helper lemmas: row-major grids ---------------------------------------------

theorem gridList_length {α : Type} (rows cols : ℕ) (f : ℕ → ℕ → α) :
    ((List.range rows).flatMap fun i => (List.range cols).map (f i)).length
      = rows * cols := by
  induction rows with
  | zero => simp
  | succ r ih =>
    rw [List.range_succ, List.flatMap_append, List.length_append, ih]
    simp [Nat.succ_mul]

theorem gridList_getElem? {α : Type} (rows cols : ℕ) (f : ℕ → ℕ → α)
    (k : ℕ) (hk : k < rows * cols) :
    ((List.range rows).flatMap fun i => (List.range cols).map (f i))[k]?
      = some (f (k / cols) (k % cols)) := by
  have hcols : 0 < cols := by
    rcases Nat.eq_zero_or_pos cols with h | h
    · rw [h, Nat.mul_zero] at hk
      exact absurd hk (Nat.not_lt_zero k)
    · exact h
  induction rows with
  | zero => simp at hk
  | succ r ih =>
    rw [List.range_succ, List.flatMap_append]
    by_cases hkr : k < r * cols
    · rw [List.getElem?_append, if_pos (by rw [gridList_length]; exact hkr)]
      exact ih hkr
    · have hlow : r * cols ≤ k := Nat.le_of_not_lt hkr
      have hup : k < r * cols + cols := by
        rw [Nat.succ_mul] at hk
        exact hk
      rw [List.getElem?_append, if_neg (by rw [gridList_length]; omega)]
      rw [gridList_length]
      have hrem : k - r * cols < cols := by omega
      have hdiv : k / cols = r := Nat.div_eq_of_lt_le hlow (by rw [Nat.succ_mul]; exact hup)
      have hmod : k % cols = k - r * cols := by
        have h2 := Nat.mod_add_div k cols
        rw [hdiv, Nat.mul_comm] at h2
        omega
      rw [hdiv, hmod]
      simp only [List.flatMap_singleton]
      rw [List.getElem?_map, List.getElem?_range hrem]
      rfl

theorem mem_gridList {α : Type} {rows cols : ℕ} {f : ℕ → ℕ → α} {t : α} :
    (t ∈ (List.range rows).flatMap fun i => (List.range cols).map (f i)) ↔
      ∃ i, i < rows ∧ ∃ j, j < cols ∧ t = f i j := by
  simp only [List.mem_flatMap, List.mem_map, List.mem_range]
  constructor
  · rintro ⟨i, hi, j, hj, rfl⟩
    exact ⟨i, hi, j, hj, rfl⟩
  · rintro ⟨i, hi, j, hj, rfl⟩
    exact ⟨i, hi, j, hj, rfl⟩

-- Helper lemmas: uniform 1-D subdivisions ------------------------------------

/-- A uniform `n`-cell subdivision of `[W, E]` covers it exactly: a point is
in the interval iff it lies in some cell `[W + j·d, W + (j+1)·d]`,
`d = (E-W)/n`. -/
theorem uniform_cells_cover (W E : ℝ) (n : ℕ) (hn : 0 < n) (hWE : W < E)
    (x : ℝ) :
    (W ≤ x ∧ x ≤ E) ↔
      ∃ j, j < n ∧ W + (j : ℝ) * ((E - W) / n) ≤ x
        ∧ x ≤ W + ((j : ℝ) + 1) * ((E - W) / n) := by
  set d : ℝ := (E - W) / n with hdd
  have hnR : (0 : ℝ) < (n : ℝ) := Nat.cast_pos.mpr hn
  have hd : 0 < d := div_pos (by linarith) hnR
  have hnd : (n : ℝ) * d = E - W := mul_div_cancel₀ _ (ne_of_gt hnR)
  constructor
  · rintro ⟨hWx, hxE⟩
    set t : ℝ := (x - W) / d with htd
    have ht0 : 0 ≤ t := div_nonneg (by linarith) hd.le
    have htd2 : t * d = x - W := div_mul_cancel₀ _ (ne_of_gt hd)
    have hfl : (0 : ℤ) ≤ ⌊t⌋ := Int.floor_nonneg.mpr ht0
    set m : ℕ := ⌊t⌋.toNat with hmd
    have hmR : (m : ℝ) = ((⌊t⌋ : ℤ) : ℝ) := by
      rw [hmd]
      exact_mod_cast congrArg (fun z : ℤ => (z : ℝ)) (Int.toNat_of_nonneg hfl)
    have hml : (m : ℝ) ≤ t := by rw [hmR]; exact Int.floor_le t
    have hmu : t < (m : ℝ) + 1 := by rw [hmR]; exact Int.lt_floor_add_one t
    by_cases hmn : m < n
    · refine ⟨m, hmn, ?_, ?_⟩
      · have := mul_le_mul_of_nonneg_right hml hd.le
        rw [htd2] at this
        linarith
      · have := mul_le_mul_of_nonneg_right hmu.le hd.le
        rw [htd2] at this
        linarith
    · have hnm : (n : ℝ) ≤ (m : ℝ) := by exact_mod_cast Nat.le_of_not_lt hmn
      have hxEeq : E ≤ x := by
        have h1 : (n : ℝ) ≤ t := le_trans hnm hml
        have := mul_le_mul_of_nonneg_right h1 hd.le
        rw [htd2, hnd] at this
        linarith
      refine ⟨n - 1, by omega, ?_, ?_⟩
      · have hcast : ((n - 1 : ℕ) : ℝ) = (n : ℝ) - 1 := by
          have : (1 : ℕ) ≤ n := hn
          push_cast [this]
          ring
        rw [hcast]
        nlinarith
      · have hcast : ((n - 1 : ℕ) : ℝ) = (n : ℝ) - 1 := by
          have : (1 : ℕ) ≤ n := hn
          push_cast [this]
          ring
        rw [hcast]
        have : ((n : ℝ) - 1 + 1) * d = E - W := by rw [← hnd]; ring
        linarith
  · rintro ⟨j, hj, hl, hu⟩
    have hj0 : (0 : ℝ) ≤ (j : ℝ) := Nat.cast_nonneg j
    have hj1 : (j : ℝ) + 1 ≤ (n : ℝ) := by exact_mod_cast Nat.succ_le_of_lt hj
    constructor
    · nlinarith
    · have h2 : ((j : ℝ) + 1) * d ≤ (n : ℝ) * d :=
        mul_le_mul_of_nonneg_right hj1 hd.le
      rw [hnd] at h2
      linarith

/-- Two distinct cells of a uniform subdivision have disjoint interiors
(1-D): nothing is strictly right of the left cell's right edge and strictly
left of the right cell's left edge at once. -/
theorem uniform_cells_disjoint {W d : ℝ} (hd : 0 < d) {j j2 : ℕ}
    (hjj : j < j2) (x : ℝ) :
    ¬(x < W + ((j : ℝ) + 1) * d ∧ W + (j2 : ℝ) * d < x) := by
  rintro ⟨h1, h2⟩
  have hle : (j : ℝ) + 1 ≤ (j2 : ℝ) := by exact_mod_cast Nat.succ_le_of_lt hjj
  nlinarith

-- Helper lemmas: the subtile grid --------------------------------------------

theorem subtileCols_pos (sb rt : GeoBounds) (scale : ℝ) :
    0 < subtileCols sb rt scale :=
  lt_of_lt_of_le one_pos (le_max_left 1 _)

theorem subtileRows_pos (sb rt : GeoBounds) (scale : ℝ) :
    0 < subtileRows sb rt scale :=
  lt_of_lt_of_le one_pos (le_max_left 1 _)

theorem subtileDlon_pos (sb rt : GeoBounds) (scale : ℝ)
    (hWE : sb.west < sb.east) : 0 < subtileDlon sb rt scale :=
  div_pos (sub_pos.mpr hWE)
    (Nat.cast_pos.mpr (subtileCols_pos sb rt scale))

theorem subtileDlat_pos (sb rt : GeoBounds) (scale : ℝ)
    (hNS : sb.south < sb.north) : 0 < subtileDlat sb rt scale :=
  div_pos (sub_pos.mpr hNS)
    (Nat.cast_pos.mpr (subtileRows_pos sb rt scale))

/-- With a west-to-east, south-to-north search box the `min`/`max` in the
tuple resolve to the plain corner formulas. -/
theorem subtileAt_explicit (sb rt : GeoBounds) (scale : ℝ)
    (hWE : sb.west < sb.east) (hNS : sb.south < sb.north) (i j : ℕ) :
    subtileAt sb rt scale i j =
      (sb.west + (j : ℝ) * subtileDlon sb rt scale,
       sb.west + ((j : ℝ) + 1) * subtileDlon sb rt scale,
       sb.south + (i : ℝ) * subtileDlat sb rt scale,
       sb.south + ((i : ℝ) + 1) * subtileDlat sb rt scale) := by
  have hdlon := subtileDlon_pos sb rt scale hWE
  have hdlat := subtileDlat_pos sb rt scale hNS
  have h1 : sb.west + (j : ℝ) * subtileDlon sb rt scale ≤
      sb.west + ((j : ℝ) + 1) * subtileDlon sb rt scale := by
    have := mul_le_mul_of_nonneg_right
      (by linarith : (j : ℝ) ≤ (j : ℝ) + 1) hdlon.le
    linarith
  have h2 : sb.south + (i : ℝ) * subtileDlat sb rt scale ≤
      sb.south + ((i : ℝ) + 1) * subtileDlat sb rt scale := by
    have := mul_le_mul_of_nonneg_right
      (by linarith : (i : ℝ) ≤ (i : ℝ) + 1) hdlat.le
    linarith
  unfold subtileAt
  dsimp only
  rw [min_eq_left h1, max_eq_right h1, min_eq_left h2, max_eq_right h2]

/-- The general contract of `compute_subtiles` for a proper search box and a
positive-size reference tile: it succeeds; returns `rows * cols` tiles; the
tile at row-major position `i*cols + j` is the `(i, j)` grid cell; the cells
cover the search bounds exactly; and distinct returned tiles have disjoint
interiors. -/
theorem compute_subtiles_spec (sb rt : GeoBounds) (scale : ℝ)
    (hNS : sb.south < sb.north) (hWE : sb.west < sb.east)
    (hw : 0 < refWidthKm rt scale) (hh : 0 < refHeightKm rt scale) :
    ∃ ts, compute_subtiles sb rt scale = some ts
      ∧ ts.length = subtileRows sb rt scale * subtileCols sb rt scale
      ∧ (∀ i j, i < subtileRows sb rt scale → j < subtileCols sb rt scale →
          ts[i * subtileCols sb rt scale + j]? =
            some (sb.west + (j : ℝ) * subtileDlon sb rt scale,
                  sb.west + ((j : ℝ) + 1) * subtileDlon sb rt scale,
                  sb.south + (i : ℝ) * subtileDlat sb rt scale,
                  sb.south + ((i : ℝ) + 1) * subtileDlat sb rt scale))
      ∧ (∀ x y, (sb.west ≤ x ∧ x ≤ sb.east ∧ sb.south ≤ y ∧ y ≤ sb.north) ↔
          ∃ t ∈ ts, memTile t x y)
      ∧ (∀ (k1 k2 : ℕ) (t1 t2 : ℝ × ℝ × ℝ × ℝ), k1 ≠ k2 →
          ts[k1]? = some t1 → ts[k2]? = some t2 →
          ∀ x y, ¬(interiorMemTile t1 x y ∧ interiorMemTile t2 x y)) := by
  have hcols := subtileCols_pos sb rt scale
  have hrows := subtileRows_pos sb rt scale
  have hdlon := subtileDlon_pos sb rt scale hWE
  have hdlat := subtileDlat_pos sb rt scale hNS
  refine ⟨subtileList sb rt scale, ?_, ?_, ?_, ?_, ?_⟩
  · unfold compute_subtiles
    rw [if_neg (by push_neg; exact ⟨hw, hh⟩)]
  · unfold subtileList
    exact gridList_length _ _ _
  · intro i j hi hj
    have hk : i * subtileCols sb rt scale + j <
        subtileRows sb rt scale * subtileCols sb rt scale := by
      have h1 : i * subtileCols sb rt scale + j < (i + 1) * subtileCols sb rt scale := by
        rw [Nat.succ_mul]
        omega
      have h2 : (i + 1) * subtileCols sb rt scale ≤
          subtileRows sb rt scale * subtileCols sb rt scale :=
        Nat.mul_le_mul_right _ (Nat.succ_le_of_lt hi)
      omega
    unfold subtileList
    rw [gridList_getElem? _ _ _ _ hk]
    have hdiv : (i * subtileCols sb rt scale + j) / subtileCols sb rt scale = i := by
      rw [Nat.mul_comm i, Nat.mul_add_div hcols, Nat.div_eq_of_lt hj, Nat.add_zero]
    have hmod : (i * subtileCols sb rt scale + j) % subtileCols sb rt scale = j := by
      rw [Nat.mul_comm i, Nat.mul_add_mod, Nat.mod_eq_of_lt hj]
    rw [hdiv, hmod, subtileAt_explicit sb rt scale hWE hNS i j]
  · intro x y
    constructor
    · rintro ⟨hWx, hxE, hSy, hyN⟩
      obtain ⟨j, hj, hjl, hju⟩ :=
        (uniform_cells_cover sb.west sb.east (subtileCols sb rt scale)
          hcols hWE x).mp ⟨hWx, hxE⟩
      obtain ⟨i, hi, hil, hiu⟩ :=
        (uniform_cells_cover sb.south sb.north (subtileRows sb rt scale)
          hrows hNS y).mp ⟨hSy, hyN⟩
      refine ⟨subtileAt sb rt scale i j, ?_, ?_⟩
      · unfold subtileList
        exact mem_gridList.mpr ⟨i, hi, j, hj, rfl⟩
      · rw [subtileAt_explicit sb rt scale hWE hNS i j]
        exact ⟨hjl, hju, hil, hiu⟩
    · rintro ⟨t, ht, hmem⟩
      unfold subtileList at ht
      obtain ⟨i, hi, j, hj, rfl⟩ := mem_gridList.mp ht
      rw [subtileAt_explicit sb rt scale hWE hNS i j] at hmem
      obtain ⟨hjl, hju, hil, hiu⟩ := hmem
      have hx := (uniform_cells_cover sb.west sb.east (subtileCols sb rt scale)
        hcols hWE x).mpr ⟨j, hj, hjl, hju⟩
      have hy := (uniform_cells_cover sb.south sb.north (subtileRows sb rt scale)
        hrows hNS y).mpr ⟨i, hi, hil, hiu⟩
      exact ⟨hx.1, hx.2, hy.1, hy.2⟩
  · intro k1 k2 t1 t2 hne h1 h2 x y hint
    have hlen : (subtileList sb rt scale).length =
        subtileRows sb rt scale * subtileCols sb rt scale := by
      unfold subtileList
      exact gridList_length _ _ _
    have hk1 : k1 < subtileRows sb rt scale * subtileCols sb rt scale := by
      by_contra hc
      rw [List.getElem?_eq_none (by rw [hlen]; omega)] at h1
      cases h1
    have hk2 : k2 < subtileRows sb rt scale * subtileCols sb rt scale := by
      by_contra hc
      rw [List.getElem?_eq_none (by rw [hlen]; omega)] at h2
      cases h2
    unfold subtileList at h1 h2
    rw [gridList_getElem? _ _ _ _ hk1] at h1
    rw [gridList_getElem? _ _ _ _ hk2] at h2
    rw [subtileAt_explicit sb rt scale hWE hNS] at h1 h2
    rw [Option.some_inj] at h1 h2
    subst h1
    subst h2
    obtain ⟨ha1, ha2, ha3, ha4⟩ := hint.1
    obtain ⟨hb1, hb2, hb3, hb4⟩ := hint.2
    have hd1 := Nat.div_add_mod k1 (subtileCols sb rt scale)
    have hd2 := Nat.div_add_mod k2 (subtileCols sb rt scale)
    have hij : k1 / subtileCols sb rt scale ≠ k2 / subtileCols sb rt scale
        ∨ k1 % subtileCols sb rt scale ≠ k2 % subtileCols sb rt scale := by
      by_contra hc
      push_neg at hc
      rw [hc.1, hc.2] at hd1
      exact hne (by omega)
    rcases hij with hij | hij
    · rcases Nat.lt_or_ge (k1 / subtileCols sb rt scale)
        (k2 / subtileCols sb rt scale) with hlt | hge
      · exact uniform_cells_disjoint hdlat hlt y ⟨ha4, hb3⟩
      · have hlt : k2 / subtileCols sb rt scale < k1 / subtileCols sb rt scale := by
          omega
        exact uniform_cells_disjoint hdlat hlt y ⟨hb4, ha3⟩
    · rcases Nat.lt_or_ge (k1 % subtileCols sb rt scale)
        (k2 % subtileCols sb rt scale) with hlt | hge
      · exact uniform_cells_disjoint hdlon hlt x ⟨ha2, hb1⟩
      · have hlt : k2 % subtileCols sb rt scale < k1 % subtileCols sb rt scale := by
          omega
        exact uniform_cells_disjoint hdlon hlt x ⟨hb2, ha1⟩

-- Helper lemmas: the unit-square example ------------------------------------

theorem example_cos_ref_pos :
    0 < Real.cos (0.5 * ((0 : ℝ) + 0.1) * Real.pi / 180) := by
  have hp := Real.pi_pos
  apply Real.cos_pos_of_mem_Ioo
  rw [Set.mem_Ioo]
  constructor
  · nlinarith
  · nlinarith

theorem example_cos_search_le :
    Real.cos (0.5 * ((0 : ℝ) + 1) * Real.pi / 180) ≤
      Real.cos (0.5 * ((0 : ℝ) + 0.1) * Real.pi / 180) := by
  have hp := Real.pi_pos
  have hp4 := Real.pi_le_four
  apply Real.cos_le_cos_of_nonneg_of_le_pi
  · nlinarith
  · nlinarith
  · nlinarith

theorem example_cos_search_gt :
    (9 : ℝ) / 10 < Real.cos (0.5 * ((0 : ℝ) + 1) * Real.pi / 180) := by
  have hp := Real.pi_pos
  have hp4 := Real.pi_le_four
  have hb := @Real.one_sub_sq_div_two_le_cos (0.5 * ((0 : ℝ) + 1) * Real.pi / 180)
  have ha1le : 0.5 * ((0 : ℝ) + 1) * Real.pi / 180 ≤ 1 / 90 := by nlinarith
  have ha1ge : 0 ≤ 0.5 * ((0 : ℝ) + 1) * Real.pi / 180 := by nlinarith
  have hprod : 0 ≤ (1 / 90 - 0.5 * ((0 : ℝ) + 1) * Real.pi / 180) *
      (1 / 90 + 0.5 * ((0 : ℝ) + 1) * Real.pi / 180) :=
    mul_nonneg (by linarith) (by linarith)
  nlinarith

theorem example_refWidthKm_pos : 0 < refWidthKm exampleRefTile 1 := by
  have h := example_cos_ref_pos
  unfold refWidthKm km_per_deg midlat exampleRefTile
  dsimp only
  rw [show |(0.1 : ℝ) - 0| = 0.1 by norm_num]
  nlinarith

theorem example_refHeightKm_pos : 0 < refHeightKm exampleRefTile 1 := by
  unfold refHeightKm km_per_deg midlat exampleRefTile
  dsimp only
  rw [show |(0.1 : ℝ) - 0| = 0.1 by norm_num]
  norm_num

theorem example_cols : subtileCols exampleSearchBounds exampleRefTile 1 = 10 := by
  have hc2 := example_cos_ref_pos
  have hle := example_cos_search_le
  have hgt := example_cos_search_gt
  have hc2le1 := Real.cos_le_one (0.5 * ((0 : ℝ) + 0.1) * Real.pi / 180)
  unfold subtileCols
  have hratio : ⌈searchWidthKm exampleSearchBounds / refWidthKm exampleRefTile 1⌉
      = (10 : ℤ) := by
    unfold searchWidthKm refWidthKm km_per_deg midlat exampleSearchBounds exampleRefTile
    dsimp only
    rw [Int.ceil_eq_iff]
    rw [show |(1 : ℝ) - 0| = 1 by norm_num, show |(0.1 : ℝ) - 0| = 0.1 by norm_num]
    constructor
    · rw [lt_div_iff₀ (by nlinarith)]
      push_cast
      nlinarith
    · rw [div_le_iff₀ (by nlinarith)]
      push_cast
      nlinarith
  rw [hratio]
  rfl

theorem example_rows : subtileRows exampleSearchBounds exampleRefTile 1 = 10 := by
  unfold subtileRows
  have hratio : ⌈searchHeightKm exampleSearchBounds / refHeightKm exampleRefTile 1⌉
      = (10 : ℤ) := by
    unfold searchHeightKm refHeightKm km_per_deg midlat exampleSearchBounds exampleRefTile
    dsimp only
    rw [show |(1 : ℝ) - 0| = 1 by norm_num, show |(0.1 : ℝ) - 0| = 0.1 by norm_num]
    rw [show (1 : ℝ) * 110.574 / (0.1 * 110.574 * 1) = 10 by norm_num]
    norm_num
  rw [hratio]
  rfl

theorem example_dlon : subtileDlon exampleSearchBounds exampleRefTile 1 = 1 / 10 := by
  unfold subtileDlon
  rw [example_cols]
  unfold exampleSearchBounds
  norm_num

theorem example_dlat : subtileDlat exampleSearchBounds exampleRefTile 1 = 1 / 10 := by
  unfold subtileDlat
  rw [example_rows]
  unfold exampleSearchBounds
  norm_num

-- Claim C2 -------------------------------------------------------------------

/-- Claim C2: for every search bounds with `north > south`, `east > west`
and every reference tile of positive computed km size, `compute_subtiles`
succeeds and returns exactly `rows * cols` tiles with
`cols = max(1, ceil(searchWidthKm / refWidthKm))` and
`rows = max(1, ceil(searchHeightKm / refHeightKm))`, emitted in row-major
order (position `i*cols + j` is the `(i, j)` grid cell), whose union covers
the search bounds exactly — every point of the box lies in some tile and
every tile lies in the box — with no overlap (distinct tiles have disjoint
interiors); and in particular the unit square with the `0.1`-sized reference
tile yields a 10×10 grid of 100 equal tiles partitioning the unit square. -/
theorem claim2_compute_subtiles (sb rt : GeoBounds) (scale : ℝ)
    (hNS : sb.south < sb.north) (hWE : sb.west < sb.east)
    (hw : 0 < refWidthKm rt scale) (hh : 0 < refHeightKm rt scale) :
    (subtileCols sb rt scale =
        max 1 ⌈searchWidthKm sb / refWidthKm rt scale⌉.toNat
      ∧ subtileRows sb rt scale =
        max 1 ⌈searchHeightKm sb / refHeightKm rt scale⌉.toNat
      ∧ ∃ ts, compute_subtiles sb rt scale = some ts
        ∧ ts.length = subtileRows sb rt scale * subtileCols sb rt scale
        ∧ (∀ i j, i < subtileRows sb rt scale → j < subtileCols sb rt scale →
            ts[i * subtileCols sb rt scale + j]? =
              some (sb.west + (j : ℝ) * subtileDlon sb rt scale,
                    sb.west + ((j : ℝ) + 1) * subtileDlon sb rt scale,
                    sb.south + (i : ℝ) * subtileDlat sb rt scale,
                    sb.south + ((i : ℝ) + 1) * subtileDlat sb rt scale))
        ∧ (∀ x y, (sb.west ≤ x ∧ x ≤ sb.east ∧ sb.south ≤ y ∧ y ≤ sb.north) ↔
            ∃ t ∈ ts, memTile t x y)
        ∧ (∀ (k1 k2 : ℕ) (t1 t2 : ℝ × ℝ × ℝ × ℝ), k1 ≠ k2 →
            ts[k1]? = some t1 → ts[k2]? = some t2 →
            ∀ x y, ¬(interiorMemTile t1 x y ∧ interiorMemTile t2 x y)))
    ∧ (∃ ts, compute_subtiles exampleSearchBounds exampleRefTile 1 = some ts
        ∧ ts.length = 100
        ∧ subtileRows exampleSearchBounds exampleRefTile 1 = 10
        ∧ subtileCols exampleSearchBounds exampleRefTile 1 = 10
        ∧ (∀ (i j : ℕ), i < 10 → j < 10 →
            ts[i * 10 + j]? = some ((j : ℝ) * (1 / 10), ((j : ℝ) + 1) * (1 / 10),
              (i : ℝ) * (1 / 10), ((i : ℝ) + 1) * (1 / 10)))
        ∧ (∀ x y, ((0 : ℝ) ≤ x ∧ x ≤ 1 ∧ (0 : ℝ) ≤ y ∧ y ≤ 1) ↔
            ∃ t ∈ ts, memTile t x y)
        ∧ (∀ (k1 k2 : ℕ) (t1 t2 : ℝ × ℝ × ℝ × ℝ), k1 ≠ k2 →
            ts[k1]? = some t1 → ts[k2]? = some t2 →
            ∀ x y, ¬(interiorMemTile t1 x y ∧ interiorMemTile t2 x y))) := by
  constructor
  · exact ⟨rfl, rfl, compute_subtiles_spec sb rt scale hNS hWE hw hh⟩
  · have hexNS : exampleSearchBounds.south < exampleSearchBounds.north := by
      unfold exampleSearchBounds
      norm_num
    have hexWE : exampleSearchBounds.west < exampleSearchBounds.east := by
      unfold exampleSearchBounds
      norm_num
    obtain ⟨ts, hsome, hlen, hform, hcover, hdisj⟩ :=
      compute_subtiles_spec exampleSearchBounds exampleRefTile 1 hexNS hexWE
        example_refWidthKm_pos example_refHeightKm_pos
    refine ⟨ts, hsome, ?_, example_rows, example_cols, ?_, ?_, hdisj⟩
    · rw [hlen, example_rows, example_cols]
    · intro i j hi hj
      have h := hform i j (by rw [example_rows]; exact hi)
        (by rw [example_cols]; exact hj)
      rw [example_cols] at h
      rw [example_dlon, example_dlat] at h
      have hW : exampleSearchBounds.west = 0 := rfl
      have hS : exampleSearchBounds.south = 0 := rfl
      rw [hW, hS] at h
      simpa using h
    · intro x y
      have h := hcover x y
      have hW : exampleSearchBounds.west = 0 := rfl
      have hE : exampleSearchBounds.east = 1 := rfl
      have hS : exampleSearchBounds.south = 0 := rfl
      have hN : exampleSearchBounds.north = 1 := rfl
      rw [hW, hE, hS, hN] at h
      exact h

/-- Claim C2 witness: the theorem applied at the unit-square example, with
all hypotheses discharged there. -/
theorem claim2_compute_subtiles_witness :
    (exampleSearchBounds.south < exampleSearchBounds.north)
    ∧ (exampleSearchBounds.west < exampleSearchBounds.east)
    ∧ (0 < refWidthKm exampleRefTile 1)
    ∧ (0 < refHeightKm exampleRefTile 1)
    ∧ ∃ ts, compute_subtiles exampleSearchBounds exampleRefTile 1 = some ts
        ∧ ts.length = 100 := by
  refine ⟨by unfold exampleSearchBounds; norm_num,
    by unfold exampleSearchBounds; norm_num,
    example_refWidthKm_pos, example_refHeightKm_pos, ?_⟩
  obtain ⟨_, hex⟩ := claim2_compute_subtiles exampleSearchBounds exampleRefTile 1
    (by unfold exampleSearchBounds; norm_num)
    (by unfold exampleSearchBounds; norm_num)
    example_refWidthKm_pos example_refHeightKm_pos
  obtain ⟨ts, hsome, hlen, _⟩ := hex
  exact ⟨ts, hsome, hlen⟩
